import Mathlib

set_option synthInstance.maxSize 512
set_option maxRecDepth 10000

/-!
Shallow embedding of the MY_QUIC / MyQUIC reliable-transport engine
(`src/MY_QUIC.py`, `src/MyQUIC.py`): wire codec, connection registry,
receive engine and send engine, together with theorems settling the
specification claims about them.

Bytes are modelled as `Nat` values (each `< 256` for genuine wire data);
byte strings as `List Nat`.  Python's unbounded `int` is modelled as `Nat`
where the source only ever produces non-negative values and as `Int` where
a subtraction can go negative.  `struct.pack`/`struct.unpack` failures
(wrong buffer size, out-of-range field) are modelled by `Option`/`Except`
results, matching an uncaught Python `struct.error`.
-/

namespace MYQUIC

deriving instance DecidableEq for Except

/-- Protocol constants from the top of both source files. -/
def MAX_RECEIVE_BYTES : Nat := 65536

def SHORT_PACKET : Nat := 3

def DATA_FRAME : Nat := 5

def ACK_FRAME : Nat := 6

def ACK_TIMEOUT : Nat := 2

/-- Retry budget of `MY_QUIC.py` (`MAX_RETRIES = 4`). -/
def MAX_RETRIES : Nat := 4

/-- Frame cap of `MY_QUIC.py` (`MAX_FRAMES_FOR_PACKET = 7`). -/
def MAX_FRAMES_FOR_PACKET : Nat := 7

/-- Frame cap of `MyQUIC.py` (`MAX_FRAMES_FOR_PACKET = 6`). -/
def MyQUIC_MAX_FRAMES_FOR_PACKET : Nat := 6

def MAX_STREAM_SIZE : Nat := 2000

def MIN_STREAM_SIZE : Nat := 1000

/-! ## Big-endian byte encoding (the `struct` module's `!` formats) -/

/-- Big-endian encoding of `n` into `w` bytes (struct `!` with `B`, `I`, `Q`). -/
def encBE : Nat → Nat → List Nat
  | 0, _ => []
  | w + 1, n => n / 256 ^ w :: encBE w (n % 256 ^ w)

/-- Big-endian decoding of a byte string (struct unpack of `B`, `I`, `Q`). -/
def decBE (bs : List Nat) : Nat :=
  bs.foldl (fun acc b => acc * 256 + b) 0

theorem encBE_length : ∀ (w n : Nat), (encBE w n).length = w := by
  intro w
  induction w with
  | zero => intro n; rfl
  | succ w ih => intro n; simp [encBE, ih]

theorem decBE_foldl_acc (a : Nat) (bs : List Nat) :
    bs.foldl (fun acc b => acc * 256 + b) a = a * 256 ^ bs.length + decBE bs := by
  induction bs generalizing a with
  | nil => simp [decBE]
  | cons x rest ih =>
    simp only [List.foldl_cons, List.length_cons, decBE]
    rw [ih (a * 256 + x), ih (0 * 256 + x)]
    ring

theorem decBE_cons (x : Nat) (bs : List Nat) :
    decBE (x :: bs) = x * 256 ^ bs.length + decBE bs := by
  simp only [decBE, List.foldl_cons]
  simpa using decBE_foldl_acc x bs

theorem decBE_encBE : ∀ (w n : Nat), n < 256 ^ w → decBE (encBE w n) = n := by
  intro w
  induction w with
  | zero =>
    intro n hn
    interval_cases n
    rfl
  | succ w ih =>
    intro n hn
    rw [encBE, decBE_cons, encBE_length, ih (n % 256 ^ w) (Nat.mod_lt _ (by positivity))]
    rw [Nat.mul_comm]
    exact Nat.div_add_mod n (256 ^ w)

/-! ## Wire codec: `PacketHeader` and `Frame` (classes of both source files) -/

/-- Mirrors class `PacketHeader` (`type`, `number`), format `"!BI"`. -/
structure PacketHeader where
  type : Nat
  number : Nat
deriving DecidableEq

/-- Mirrors `PacketHeader.serialize`: `struct.pack("!BI", type, number)`.
`none` models the `struct.error` Python raises on an out-of-range field. -/
def PacketHeader.serialize (h : PacketHeader) : Option (List Nat) :=
  if h.type < 256 ∧ h.number < 2 ^ 32 then
    some (encBE 1 h.type ++ encBE 4 h.number)
  else none

/-- Mirrors `PacketHeader.deserialize`: `struct.unpack("!BI", data)`.
`none` models the `struct.error` Python raises when `data` is not exactly
5 bytes (so nothing past the end of a short buffer is ever read). -/
def PacketHeader.deserialize (data : List Nat) : Option PacketHeader :=
  if data.length = 5 then
    some ⟨decBE (data.take 1), decBE (data.drop 1)⟩
  else none

/-- Mirrors class `Frame` (`streamId`, `type`, `offset`, `length`), format `"!IIQI"`. -/
structure Frame where
  streamId : Nat
  type : Nat
  offset : Nat
  length : Nat
deriving DecidableEq

/-- Mirrors `Frame.serialize`: `struct.pack("!IIQI", streamId, type, offset, length)`. -/
def Frame.serialize (f : Frame) : Option (List Nat) :=
  if f.streamId < 2 ^ 32 ∧ f.type < 2 ^ 32 ∧ f.offset < 2 ^ 64 ∧ f.length < 2 ^ 32 then
    some (encBE 4 f.streamId ++ encBE 4 f.type ++ encBE 8 f.offset ++ encBE 4 f.length)
  else none

/-- Mirrors `Frame.deserialize`: `struct.unpack("!IIQI", data)` on exactly 20 bytes. -/
def Frame.deserialize (data : List Nat) : Option Frame :=
  if data.length = 20 then
    some ⟨decBE (data.take 4), decBE ((data.drop 4).take 4),
          decBE ((data.drop 8).take 8), decBE (data.drop 16)⟩
  else none

theorem PacketHeader.serialize_length_5 (h : PacketHeader) (bs : List Nat)
    (hs : h.serialize = some bs) : bs.length = 5 := by
  unfold PacketHeader.serialize at hs
  split at hs
  · cases hs
    simp [encBE_length]
  · cases hs

theorem PacketHeader.deserialize_serialize_header (h : PacketHeader) (bs : List Nat)
    (hs : h.serialize = some bs) : PacketHeader.deserialize bs = some h := by
  unfold PacketHeader.serialize at hs
  split at hs
  case isTrue hr =>
    cases hs
    unfold PacketHeader.deserialize
    rw [if_pos (by simp [encBE_length])]
    have ht : (encBE 1 h.type ++ encBE 4 h.number).take 1 = encBE 1 h.type := by
      rw [List.take_left' (encBE_length 1 h.type)]
    have hd : (encBE 1 h.type ++ encBE 4 h.number).drop 1 = encBE 4 h.number := by
      rw [List.drop_left' (encBE_length 1 h.type)]
    rw [ht, hd, decBE_encBE 1 h.type (by simpa using hr.1), decBE_encBE 4 h.number hr.2]
  case isFalse => cases hs

theorem Frame.serialize_length_20 (f : Frame) (bs : List Nat)
    (hs : f.serialize = some bs) : bs.length = 20 := by
  unfold Frame.serialize at hs
  split at hs
  · cases hs
    simp [encBE_length]
  · cases hs

theorem Frame.deserialize_serialize_frame (f : Frame) (bs : List Nat)
    (hs : f.serialize = some bs) : Frame.deserialize bs = some f := by
  unfold Frame.serialize at hs
  split at hs
  case isTrue hr =>
    cases hs
    unfold Frame.deserialize
    simp only [List.append_assoc]
    rw [if_pos (by simp [encBE_length])]
    have h4 : (encBE 4 f.streamId ++ (encBE 4 f.type ++ (encBE 8 f.offset ++ encBE 4 f.length))).drop 4
        = encBE 4 f.type ++ (encBE 8 f.offset ++ encBE 4 f.length) :=
      List.drop_left' (encBE_length 4 f.streamId)
    have h8 : (encBE 4 f.streamId ++ (encBE 4 f.type ++ (encBE 8 f.offset ++ encBE 4 f.length))).drop 8
        = encBE 8 f.offset ++ encBE 4 f.length := by
      rw [show (8 : Nat) = 4 + 4 from rfl]
      rw [← List.drop_drop, h4]
      exact List.drop_left' (encBE_length 4 f.type)
    have h16 : (encBE 4 f.streamId ++ (encBE 4 f.type ++ (encBE 8 f.offset ++ encBE 4 f.length))).drop 16
        = encBE 4 f.length := by
      rw [show (16 : Nat) = 8 + 8 from rfl]
      rw [← List.drop_drop, h8]
      exact List.drop_left' (encBE_length 8 f.offset)
    rw [List.take_left' (encBE_length 4 f.streamId), h4, h8, h16,
        List.take_left' (encBE_length 4 f.type),
        List.take_left' (encBE_length 8 f.offset),
        decBE_encBE 4 f.streamId hr.1, decBE_encBE 4 f.type hr.2.1,
        decBE_encBE 8 f.offset hr.2.2.1, decBE_encBE 4 f.length hr.2.2.2]
  case isFalse => cases hs

/-! ## Python dict model (insertion-ordered association lists) -/

/-- Lookup in a Python dict, modelled as an association list. -/
def dictGet {β : Type} (d : List (Nat × β)) (k : Nat) : Option β :=
  (d.find? (fun p => decide (p.1 = k))).map (fun p => p.2)

/-- Assignment `d[k] = v` on a Python dict: replaces in place, or appends. -/
def dictSet {β : Type} : List (Nat × β) → Nat → β → List (Nat × β)
  | [], k, v => [(k, v)]
  | p :: rest, k, v => if p.1 = k then (k, v) :: rest else p :: dictSet rest k v

theorem dictGet_dictSet_same {β : Type} (d : List (Nat × β)) (k : Nat) (v : β) :
    dictGet (dictSet d k v) k = some v := by
  induction d with
  | nil => simp [dictGet, dictSet, List.find?]
  | cons p rest ih =>
    by_cases h : p.1 = k
    · simp [dictGet, dictSet, h, List.find?]
    · simp only [dictSet, if_neg h, dictGet, List.find?_cons, decide_eq_false h]
      exact ih

theorem dictGet_dictSet_ne {β : Type} (d : List (Nat × β)) (k k' : Nat) (v : β)
    (h : k' ≠ k) : dictGet (dictSet d k v) k' = dictGet d k' := by
  induction d with
  | nil =>
    simp only [dictSet, dictGet, List.find?_cons, List.find?_nil,
      decide_eq_false (by omega : ¬(k = k'))]
  | cons p rest ih =>
    by_cases hp : p.1 = k
    · simp only [dictSet, if_pos hp, dictGet, List.find?_cons]
      rw [decide_eq_false (by omega : ¬(k = k')),
          decide_eq_false (by omega : ¬(p.1 = k'))]
    · simp only [dictSet, if_neg hp, dictGet, List.find?_cons]
      cases hd : decide (p.1 = k') with
      | true => rfl
      | false => exact ih

/-! ## Connection registry (`Connection`, `MY_QUIC.getOrCreateConnection`) -/

/-- Peer address, mirroring Python's `(host, port)` socket address tuples. -/
abbrev Address := String × Nat

/-- Mirrors class `Connection` of `MY_QUIC.py`. -/
structure Connection where
  address : Address
  id : Nat
  sentPackets : Nat
  receivedPackets : Nat
  streamBytesReceived : List (Nat × Nat)
  streamBytesSent : List (Nat × Int)
deriving DecidableEq

/-- Engine-instance state owned by a `MY_QUIC` object: the connection list. -/
structure MY_QUIC_State where
  connections : List Connection
deriving DecidableEq

/-- Mirrors `MY_QUIC.getOrCreateConnection`: linear scan of `self.connections`
for a matching address, appending a fresh `Connection(address, len(connections))`
when none exists.  Returns the (handle to the) connection and the updated state. -/
def getOrCreateConnection (s : MY_QUIC_State) (address : Address) :
    Connection × MY_QUIC_State :=
  match s.connections.find? (fun c => decide (c.address = address)) with
  | some c => (c, s)
  | none =>
    let newConn : Connection := ⟨address, s.connections.length, 0, 0, [], []⟩
    (newConn, ⟨s.connections ++ [newConn]⟩)

/-- Write-back of a mutated connection handle: replaces the first stored
connection with the same address (Python mutates the shared object in place). -/
def setConnection : List Connection → Connection → List Connection
  | [], _ => []
  | c0 :: rest, c => if c0.address = c.address then c :: rest else c0 :: setConnection rest c

/-! ## Receive engine (`MY_QUIC.receiveData`; `MyQUIC.receive_data` is the
same frame logic with instance-level instead of per-connection cursors) -/

/-- Body of one iteration of the frame loop of `receiveData`, given the
decoded frame `f` and the (possibly truncated) payload slice `dataBytes`.
Returns the updated connection, running received-byte total, result dict and
the serialized ACK frame appended to the ACK payload.  An `Except.error`
models the uncaught `struct.error` Python would raise while serializing the
ACK frame (only possible for out-of-range field values). -/
def frameStep (conn : Connection) (f : Frame) (dataBytes : List Nat)
    (totalObjectBytes maxBytes : Nat) (receivedObjects : List (Nat × List Nat)) :
    Except String (Connection × Nat × List (Nat × List Nat) × List Nat) :=
  let total := totalObjectBytes + f.length
  let sbr0 := if (dictGet conn.streamBytesReceived f.streamId).isSome then
      conn.streamBytesReceived
    else dictSet conn.streamBytesReceived f.streamId 0
  let cursor := (dictGet sbr0 f.streamId).getD 0
  let ackOffset := if f.offset = cursor then f.offset + f.length else cursor
  let sbr1 := if f.offset = cursor then dictSet sbr0 f.streamId (cursor + f.length) else sbr0
  match Frame.serialize ⟨f.streamId, ACK_FRAME, ackOffset, 0⟩ with
  | none => .error "struct.error"
  | some ackBytes =>
    let receivedObjects' :=
      if total ≤ maxBytes then dictSet receivedObjects f.streamId dataBytes
      else receivedObjects
    .ok ({ conn with streamBytesReceived := sbr1 }, total, receivedObjects', ackBytes)

/-- Frame loop of `receiveData`: `while len(received_data) - pointer >= frameSize`,
operating on the bytes remaining after the pointer.  The payload slice
`received_data[pointer : pointer + frame.length]` truncates at the end of the
datagram, exactly like a Python slice.  The loop recurses structurally on a
byte-count bound (each iteration consumes at least the 20 frame-header bytes,
so a bound of `rest.length` can never be exhausted while 20 bytes remain;
the base case equals the loop-exit result). -/
def processFramesAux (maxBytes : Nat) :
    Nat → Connection → List Nat → Nat → List (Nat × List Nat) → List Nat →
    Except String (Connection × List (Nat × List Nat) × List Nat)
  | 0, conn, _rest, _total, receivedObjects, ackPayload =>
    .ok (conn, receivedObjects, ackPayload)
  | bound + 1, conn, rest, totalObjectBytes, receivedObjects, ackPayload =>
    if 20 ≤ rest.length then
      match Frame.deserialize (rest.take 20) with
      | none => .error "struct.error"
      | some f =>
        match frameStep conn f ((rest.drop 20).take f.length) totalObjectBytes maxBytes
            receivedObjects with
        | .error e => .error e
        | .ok (conn2, total2, receivedObjects2, ackBytes) =>
          processFramesAux maxBytes bound conn2 ((rest.drop 20).drop f.length) total2
            receivedObjects2 (ackPayload ++ ackBytes)
    else .ok (conn, receivedObjects, ackPayload)

/-- The frame loop entered with the bytes remaining after the header. -/
def processFrames (conn : Connection) (rest : List Nat) (maxBytes totalObjectBytes : Nat)
    (receivedObjects : List (Nat × List Nat)) (ackPayload : List Nat) :
    Except String (Connection × List (Nat × List Nat) × List Nat) :=
  processFramesAux maxBytes rest.length conn rest totalObjectBytes receivedObjects ackPayload

/-- Mirrors `MY_QUIC.receiveData`.  The inbound datagram and its sender address
stand for the blocking `recvfrom` result; the outbound ACK datagram that
`sendto` would transmit is returned (`none` when no ACK is sent).  An
`Except.error` is a Python exception escaping `receiveData` uncaught. -/
def receiveData (s : MY_QUIC_State) (senderAddress : Address) (receivedData : List Nat)
    (maxBytes : Nat) :
    Except String (MY_QUIC_State × Address × List (Nat × List Nat) × Option (List Nat)) :=
  let conn := (getOrCreateConnection s senderAddress).1
  let s1 := (getOrCreateConnection s senderAddress).2
  match PacketHeader.deserialize (receivedData.take 5) with
  | none => .error "struct.error"
  | some header =>
    if header.type = SHORT_PACKET then
      let conn1 := { conn with receivedPackets := conn.receivedPackets + 1 }
      match processFrames conn1 (receivedData.drop 5) maxBytes 0 [] [] with
      | .error e => .error e
      | .ok (conn2, receivedObjects, ackPayload) =>
        match PacketHeader.serialize ⟨ACK_FRAME, header.number⟩ with
        | none => .error "struct.error"
        | some ackHeaderBytes =>
          let conn3 := { conn2 with sentPackets := conn2.sentPackets + 1 }
          .ok (⟨setConnection s1.connections conn3⟩, senderAddress, receivedObjects,
               some (ackHeaderBytes ++ ackPayload))
    else
      .ok (s1, senderAddress, [], none)

/-- Observable receive cursor (`streamBytesReceived[sid]`, default 0) of the
connection to `addr`; 0 when no such connection exists yet. -/
def connCursor (s : MY_QUIC_State) (addr : Address) (sid : Nat) : Nat :=
  match s.connections.find? (fun c => decide (c.address = addr)) with
  | some c => (dictGet c.streamBytesReceived sid).getD 0
  | none => 0

/-- Sequence of `receiveData` calls (each event: sender address, datagram,
`max_bytes`); execution stops at the first uncaught exception. -/
def runReceives (s : MY_QUIC_State) : List (Address × List Nat × Nat) → MY_QUIC_State
  | [] => s
  | (a, d, m) :: rest =>
    match receiveData s a d m with
    | .ok r => runReceives r.1 rest
    | .error _ => s

/-! ## Send engine (`MY_QUIC.sendData` / `MyQUIC.send_data`)

Both variants share one parametric model: `MY_QUIC.py` uses
`maxFramesForPacket = 7` with a `MAX_RETRIES = 4` retry loop, `MyQUIC.py`
uses `maxFramesForPacket = 6` and aborts on the first timeout or mismatched
ACK, which is the `maxRetries = 1` instance of the same loop.  Socket
interaction is abstracted by oracles: `streamSizes` stands for the
`random.randint(MIN_STREAM_SIZE, MAX_STREAM_SIZE)` draws, `sample` for
`random.sample`, and `recvOracle` for successive `recvfrom` results
(`none` = `socket.timeout`).  Transmitted datagrams are logged as
`Transmission` records (one entry per `sendto` call, retransmissions
included) carrying ghost copies of the round's active and selected
stream-id lists alongside the frames. -/

structure SendConfig where
  maxFramesForPacket : Nat
  maxRetries : Nat
deriving DecidableEq

/-- Sender-side state of the mutable `Frame` object built for one stream:
its current `offset` (cursor, overwritten by ACK offsets) and `length`
(last value passed to `updateLength`; an `Int` because
`min(stream_size, len(data) - offset)` can go negative in Python). -/
structure SFrame where
  offset : Nat
  length : Int
deriving DecidableEq

/-- One data frame as placed into an outgoing datagram. -/
structure TxFrame where
  streamId : Nat
  offset : Nat
  length : Int
  payload : List Nat
deriving DecidableEq

/-- One `sendto` of a data packet: its raw bytes (`packet_to_send`) plus
ghost copies of the packet number, the round's `frames_to_send` ids
(`activeIds`), `streams_to_send` (`selectedIds`) and the structured frames. -/
structure Transmission where
  number : Nat
  bytes : List Nat
  activeIds : List Nat
  selectedIds : List Nat
  frames : List TxFrame
deriving DecidableEq

/-- Python slice `l[a:b]` with full negative-index and clamping semantics. -/
def pySlice (l : List Nat) (a b : Int) : List Nat :=
  let n : Int := l.length
  let lo := if a < 0 then max (a + n) 0 else min a n
  let hi := if b < 0 then max (b + n) 0 else min b n
  (l.take hi.toNat).drop lo.toNat

/-- Frame-preparation loop of `sendData` (`for frame in frames_to_send[:]`):
iterates over a snapshot of the active ids, removing completed streams from
the live list and appending a serialized frame plus payload slice for each
stream that still has bytes to send.  `Except.error` models the
`struct.error` Python raises when `frame.serialize()` sees an out-of-range
(e.g. negative) field. -/
def prepFrames (dataDict : List (Nat × List Nat)) (streamSizes : Nat → Nat)
    (selected : List Nat) :
    List Nat → List Nat → List (Nat × SFrame) → List Nat → List TxFrame →
    Except String (List Nat × List (Nat × SFrame) × List Nat × List TxFrame)
  | [], framesToSend, store, payloadBytes, txFrames =>
    .ok (framesToSend, store, payloadBytes, txFrames)
  | sid :: snap, framesToSend, store, payloadBytes, txFrames =>
    if sid ∈ selected then
      let f := (dictGet store sid).getD ⟨0, 0⟩
      let data := (dictGet dataDict sid).getD []
      let bytesToSend : Int := min (streamSizes sid : Int) ((data.length : Int) - (f.offset : Int))
      if bytesToSend = 0 then
        prepFrames dataDict streamSizes selected snap (framesToSend.erase sid) store
          payloadBytes txFrames
      else if bytesToSend < 0 then .error "struct.error"
      else
        match Frame.serialize ⟨sid, DATA_FRAME, f.offset, bytesToSend.toNat⟩ with
        | none => .error "struct.error"
        | some fb =>
          let dataSlice := pySlice data (f.offset) ((f.offset : Int) + bytesToSend)
          prepFrames dataDict streamSizes selected snap framesToSend
            (dictSet store sid ⟨f.offset, bytesToSend⟩)
            (payloadBytes ++ fb ++ dataSlice)
            (txFrames ++ [⟨sid, f.offset, bytesToSend, dataSlice⟩])
    else
      prepFrames dataDict streamSizes selected snap framesToSend store payloadBytes txFrames

/-- ACK-frame loop of `sendData`, recursing structurally on a byte-count
bound exactly like `processFramesAux` (each iteration consumes at least 20
bytes, so a bound of `rest.length` is never exhausted). -/
def ackFramesLoopAux (framesToSend : List Nat) :
    Nat → List Nat → List (Nat × SFrame) → List (Nat × Int) →
    List (Nat × SFrame) × List (Nat × Int)
  | 0, _rest, store, sbs => (store, sbs)
  | bound + 1, rest, store, sbs =>
    if 20 ≤ rest.length then
      match Frame.deserialize (rest.take 20) with
      | none => (store, sbs)
      | some af =>
        if af.type = ACK_FRAME ∧ af.streamId ∈ framesToSend then
          let fLen := ((dictGet store af.streamId).getD ⟨0, 0⟩).length
          ackFramesLoopAux framesToSend bound ((rest.drop 20).drop af.length)
            (dictSet store af.streamId ⟨af.offset, fLen⟩)
            (dictSet sbs af.streamId (((dictGet sbs af.streamId).getD 0) + fLen))
        else
          ackFramesLoopAux framesToSend bound ((rest.drop 20).drop af.length) store sbs
    else (store, sbs)

/-- ACK-frame loop of `sendData`: walks the frames embedded in a matching ACK
datagram; for each `ACK_FRAME` naming a still-active stream it overwrites the
sent frame's `offset` with the ACK offset and adds the frame's last sent
`length` to `streamBytesSent`.  The pointer then skips `ack_frame.length`
trailing bytes unconditionally. -/
def ackFramesLoop (framesToSend : List Nat) (rest : List Nat)
    (store : List (Nat × SFrame)) (sbs : List (Nat × Int)) :
    List (Nat × SFrame) × List (Nat × Int) :=
  ackFramesLoopAux framesToSend rest.length rest store sbs

/-- Stop-and-wait retransmission loop (`for attempt in range(MAX_RETRIES)`):
each attempt transmits the identical datagram and consumes one `recvfrom`
event.  A timeout or a header whose number/type does not match the
outstanding packet silently triggers the next attempt; a matching ACK is
reconciled via `ackFramesLoop`.  Returns whether an ACK was obtained.
`MyQUIC.py`'s break-on-first-failure loop is the `attempts = 1` instance. -/
def retryLoop (recvOracle : Nat → Option (List Nat)) (packetNumber : Nat)
    (tx : Transmission) (framesToSend : List Nat) :
    Nat → List (Nat × SFrame) → List (Nat × Int) → Nat → List Transmission →
    Except String (Bool × List (Nat × SFrame) × List (Nat × Int) × Nat × List Transmission)
  | 0, store, sbs, eventIdx, txLog => .ok (false, store, sbs, eventIdx, txLog)
  | attemptsLeft + 1, store, sbs, eventIdx, txLog =>
    match recvOracle eventIdx with
    | none =>
      retryLoop recvOracle packetNumber tx framesToSend attemptsLeft store sbs
        (eventIdx + 1) (txLog ++ [tx])
    | some receivedData =>
      match PacketHeader.deserialize (receivedData.take 5) with
      | none => .error "struct.error"
      | some receivedHeader =>
        if receivedHeader.number ≠ packetNumber ∨ receivedHeader.type ≠ ACK_FRAME then
          retryLoop recvOracle packetNumber tx framesToSend attemptsLeft store sbs
            (eventIdx + 1) (txLog ++ [tx])
        else
          let r := ackFramesLoop framesToSend (receivedData.drop 5) store sbs
          .ok (true, r.1, r.2, eventIdx + 1, txLog ++ [tx])

/-- Mutable state threaded through the `while frames_to_send:` loop. -/
structure LoopState where
  framesToSend : List Nat
  store : List (Nat × SFrame)
  streamBytesSent : List (Nat × Int)
  sentPackets : Nat
  round : Nat
  eventIdx : Nat
  txLog : List Transmission
deriving DecidableEq

/-- The `while frames_to_send:` loop of `sendData`, fuel-bounded (`none` =
fuel exhausted; the Python loop can genuinely run unboundedly when ACKs
never advance any cursor).  The `Bool` of the result is the
peer-unresponsive flag (retry budget exhausted for one datagram). -/
def sendLoop (cfg : SendConfig) (dataDict : List (Nat × List Nat))
    (streamSizes : Nat → Nat) (sample : Nat → List Nat → List Nat)
    (recvOracle : Nat → Option (List Nat)) :
    Nat → LoopState → Option (Except String (Bool × LoopState))
  | 0, _ => none
  | fuel + 1, st =>
    if st.framesToSend = [] then some (.ok (false, st))
    else
      let selected := if st.framesToSend.length ≤ cfg.maxFramesForPacket then st.framesToSend
        else sample st.round st.framesToSend
      match prepFrames dataDict streamSizes selected st.framesToSend st.framesToSend
          st.store [] [] with
      | .error e => some (.error e)
      | .ok (fts1, store1, payloadBytes, txFrames) =>
        if fts1 = [] then
          some (.ok (false, { st with framesToSend := [], store := store1 }))
        else
          match PacketHeader.serialize ⟨SHORT_PACKET, st.sentPackets⟩ with
          | none => some (.error "struct.error")
          | some headerBytes =>
          let tx : Transmission :=
            ⟨st.sentPackets, headerBytes ++ payloadBytes, st.framesToSend, selected, txFrames⟩
          match retryLoop recvOracle tx.number tx fts1 cfg.maxRetries store1
              st.streamBytesSent st.eventIdx st.txLog with
          | .error e => some (.error e)
          | .ok (gotAck, store2, sbs2, eventIdx2, txLog2) =>
            if gotAck then
              sendLoop cfg dataDict streamSizes sample recvOracle fuel
                ⟨fts1, store2, sbs2, st.sentPackets + 1, st.round + 1, eventIdx2, txLog2⟩
            else
              some (.ok (true, ⟨fts1, store2, sbs2, st.sentPackets + 1, st.round + 1,
                eventIdx2, txLog2⟩))

/-- Result of a completed `sendData` call. -/
structure SendResult where
  total : Nat
  unresponsive : Bool
  transmissions : List Transmission
  store : List (Nat × SFrame)
  streamBytesSent : List (Nat × Int)
  sentPackets : Nat
deriving DecidableEq

/-- Mirrors `MY_QUIC.sendData` (and, with `cfg = ⟨6, 1⟩`, `MyQUIC.send_data`):
builds one `Frame(sid, DATA_FRAME, 0, streamSizes sid)` per requested stream
in dict order, initializes `streamBytesSent`, runs the send loop, and
computes the returned total: the sum of final frame offsets when
`frames[0].offset > 50`, and 0 otherwise (the accumulation sits inside the
statistics-printing block of the source).  `sentPackets0` is the
connection's packet counter at call time. -/
def sendData (cfg : SendConfig) (dataDict : List (Nat × List Nat))
    (streamSizes : Nat → Nat) (sample : Nat → List Nat → List Nat)
    (recvOracle : Nat → Option (List Nat)) (sbs0 : List (Nat × Int))
    (sentPackets0 : Nat) (fuel : Nat) : Option (Except String SendResult) :=
  let initIds := dataDict.map (fun p => p.1)
  let store0 : List (Nat × SFrame) := dataDict.map (fun p => (p.1, ⟨0, (streamSizes p.1 : Int)⟩))
  let sbs1 := dataDict.foldl
    (fun sbs p => if (dictGet sbs p.1).isSome then sbs else dictSet sbs p.1 0) sbs0
  match sendLoop cfg dataDict streamSizes sample recvOracle fuel
      ⟨initIds, store0, sbs1, sentPackets0, 0, 0, []⟩ with
  | none => none
  | some (.error e) => some (.error e)
  | some (.ok (unresponsive, st)) =>
    match initIds with
    | [] => some (.error "IndexError")
    | i0 :: _ =>
      let firstOffset := ((dictGet st.store i0).getD ⟨0, 0⟩).offset
      let total := if 50 < firstOffset then
          initIds.foldl (fun acc sid => acc + ((dictGet st.store sid).getD ⟨0, 0⟩).offset) 0
        else 0
      some (.ok ⟨total, unresponsive, st.txLog, st.store, st.streamBytesSent, st.sentPackets⟩)

/-! ## Helper lemmas about the receive engine -/

/-- Receive cursor of one stream on a connection (`streamBytesReceived[sid]`,
defaulting to 0 for a stream not seen yet). -/
def Connection.cursor (conn : Connection) (sid : Nat) : Nat :=
  (dictGet conn.streamBytesReceived sid).getD 0

theorem cursor_mk (conn : Connection) (d : List (Nat × Nat)) (sid : Nat) :
    ({ conn with streamBytesReceived := d } : Connection).cursor sid = (dictGet d sid).getD 0 := rfl

theorem cursor_init_eq (conn : Connection) (sid : Nat) :
    (dictGet (if (dictGet conn.streamBytesReceived sid).isSome then conn.streamBytesReceived
              else dictSet conn.streamBytesReceived sid 0) sid).getD 0 = conn.cursor sid := by
  by_cases h : (dictGet conn.streamBytesReceived sid).isSome
  · rw [if_pos h]; rfl
  · rw [if_neg h, dictGet_dictSet_same]
    rw [Option.not_isSome_iff_eq_none] at h
    simp [Connection.cursor, h]

theorem frameStep_cursor_eq (conn : Connection) (f : Frame) (dataBytes : List Nat)
    (total maxB : Nat) (objs : List (Nat × List Nat)) (res)
    (h : frameStep conn f dataBytes total maxB objs = .ok res) :
    res.1.cursor f.streamId =
      (if f.offset = conn.cursor f.streamId then conn.cursor f.streamId + f.length
       else conn.cursor f.streamId) := by
  simp only [frameStep] at h
  rw [cursor_init_eq conn f.streamId] at h
  split at h
  · cases h
  case h_2 ackBytes hser =>
    cases h
    rw [cursor_mk]
    by_cases hoff : f.offset = conn.cursor f.streamId
    · rw [if_pos hoff, if_pos hoff, dictGet_dictSet_same]
      rfl
    · rw [if_neg hoff, if_neg hoff]
      exact cursor_init_eq conn f.streamId

theorem frameStep_cursor_other (conn : Connection) (f : Frame) (dataBytes : List Nat)
    (total maxB : Nat) (objs : List (Nat × List Nat)) (res)
    (h : frameStep conn f dataBytes total maxB objs = .ok res) (sid : Nat)
    (hne : sid ≠ f.streamId) : res.1.cursor sid = conn.cursor sid := by
  simp only [frameStep] at h
  split at h
  · cases h
  case h_2 ackBytes hser =>
    cases h
    rw [cursor_mk]
    by_cases hin : (dictGet conn.streamBytesReceived f.streamId).isSome
    · rw [if_pos hin]
      split
      · rw [dictGet_dictSet_ne _ _ _ _ hne]
        rfl
      · rfl
    · rw [if_neg hin]
      split
      · rw [dictGet_dictSet_ne _ _ _ _ hne, dictGet_dictSet_ne _ _ _ _ hne]
        rfl
      · rw [dictGet_dictSet_ne _ _ _ _ hne]
        rfl

theorem frameStep_cursor_mono (conn : Connection) (f : Frame) (dataBytes : List Nat)
    (total maxB : Nat) (objs : List (Nat × List Nat)) (res)
    (h : frameStep conn f dataBytes total maxB objs = .ok res) (sid : Nat) :
    conn.cursor sid ≤ res.1.cursor sid := by
  by_cases hsid : sid = f.streamId
  · subst hsid
    rw [frameStep_cursor_eq conn f dataBytes total maxB objs res h]
    split <;> omega
  · rw [frameStep_cursor_other conn f dataBytes total maxB objs res h sid hsid]

theorem frameStep_address (conn : Connection) (f : Frame) (dataBytes : List Nat)
    (total maxB : Nat) (objs : List (Nat × List Nat)) (res)
    (h : frameStep conn f dataBytes total maxB objs = .ok res) :
    res.1.address = conn.address := by
  simp only [frameStep] at h
  split at h
  · cases h
  · cases h
    rfl

theorem frameStep_counters (conn : Connection) (f : Frame) (dataBytes : List Nat)
    (total maxB : Nat) (objs : List (Nat × List Nat)) (res)
    (h : frameStep conn f dataBytes total maxB objs = .ok res) :
    res.1.receivedPackets = conn.receivedPackets ∧ res.1.sentPackets = conn.sentPackets := by
  simp only [frameStep] at h
  split at h
  · cases h
  · cases h
    exact ⟨rfl, rfl⟩

theorem processFramesAux_cursor_mono (maxB : Nat) :
    ∀ (bound : Nat) (conn : Connection) (rest : List Nat) (total : Nat)
      (objs : List (Nat × List Nat)) (ackP : List Nat) (res),
      processFramesAux maxB bound conn rest total objs ackP = .ok res →
      ∀ sid, conn.cursor sid ≤ res.1.cursor sid := by
  intro bound
  induction bound with
  | zero =>
    intro conn rest total objs ackP res h sid
    cases h
    exact le_refl _
  | succ bound ih =>
    intro conn rest total objs ackP res h sid
    rw [processFramesAux] at h
    by_cases hlen : 20 ≤ rest.length
    · rw [if_pos hlen] at h
      cases hdes : Frame.deserialize (rest.take 20) with
      | none =>
        rw [hdes] at h
        exact (Except.noConfusion h)
      | some f =>
        simp only [hdes] at h
        cases hstep : frameStep conn f ((rest.drop 20).take f.length) total maxB objs with
        | error e =>
          simp only [hstep] at h
          exact (Except.noConfusion h)
        | ok q =>
          obtain ⟨conn2, total2, objs2, ackBytes⟩ := q
          simp only [hstep] at h
          exact le_trans (frameStep_cursor_mono _ _ _ _ _ _ _ hstep sid)
            (ih _ _ _ _ _ _ h sid)
    · rw [if_neg hlen] at h
      cases h
      exact le_refl _

theorem processFrames_cursor_mono (conn : Connection) (rest : List Nat)
    (maxB total : Nat) (objs : List (Nat × List Nat)) (ackP : List Nat) (res)
    (h : processFrames conn rest maxB total objs ackP = .ok res) (sid : Nat) :
    conn.cursor sid ≤ res.1.cursor sid :=
  processFramesAux_cursor_mono maxB rest.length conn rest total objs ackP res h sid

theorem processFramesAux_address (maxB : Nat) :
    ∀ (bound : Nat) (conn : Connection) (rest : List Nat) (total : Nat)
      (objs : List (Nat × List Nat)) (ackP : List Nat) (res),
      processFramesAux maxB bound conn rest total objs ackP = .ok res →
      res.1.address = conn.address := by
  intro bound
  induction bound with
  | zero =>
    intro conn rest total objs ackP res h
    cases h
    rfl
  | succ bound ih =>
    intro conn rest total objs ackP res h
    rw [processFramesAux] at h
    by_cases hlen : 20 ≤ rest.length
    · rw [if_pos hlen] at h
      cases hdes : Frame.deserialize (rest.take 20) with
      | none =>
        rw [hdes] at h
        exact (Except.noConfusion h)
      | some f =>
        simp only [hdes] at h
        cases hstep : frameStep conn f ((rest.drop 20).take f.length) total maxB objs with
        | error e =>
          simp only [hstep] at h
          exact (Except.noConfusion h)
        | ok q =>
          obtain ⟨conn2, total2, objs2, ackBytes⟩ := q
          simp only [hstep] at h
          rw [ih _ _ _ _ _ _ h, frameStep_address _ _ _ _ _ _ _ hstep]
    · rw [if_neg hlen] at h
      cases h
      rfl

theorem processFrames_address (conn : Connection) (rest : List Nat)
    (maxB total : Nat) (objs : List (Nat × List Nat)) (ackP : List Nat) (res)
    (h : processFrames conn rest maxB total objs ackP = .ok res) :
    res.1.address = conn.address :=
  processFramesAux_address maxB rest.length conn rest total objs ackP res h

theorem find?_setConnection_same (l : List Connection) (c : Connection)
    (h : (l.find? (fun c0 => decide (c0.address = c.address))).isSome) :
    (setConnection l c).find? (fun c0 => decide (c0.address = c.address)) = some c := by
  induction l with
  | nil => simp [List.find?] at h
  | cons c0 rest ih =>
    by_cases ha : c0.address = c.address
    · simp [setConnection, if_pos ha, List.find?]
    · rw [List.find?_cons, decide_eq_false ha] at h
      simp only [setConnection, if_neg ha, List.find?_cons, decide_eq_false ha]
      exact ih h

theorem find?_setConnection_other (l : List Connection) (c : Connection) (a' : Address)
    (h : a' ≠ c.address) :
    (setConnection l c).find? (fun c0 => decide (c0.address = a')) =
      l.find? (fun c0 => decide (c0.address = a')) := by
  induction l with
  | nil => rfl
  | cons c0 rest ih =>
    by_cases ha : c0.address = c.address
    · simp only [setConnection, if_pos ha, List.find?_cons,
        decide_eq_false (show ¬(c.address = a') from fun hc => h hc.symm),
        decide_eq_false (show ¬(c0.address = a') from fun hc => h (ha ▸ hc).symm)]
    · simp only [setConnection, if_neg ha, List.find?_cons]
      cases hd : decide (c0.address = a') with
      | true => rfl
      | false => exact ih

theorem getOrCreate_cursor_le (s : MY_QUIC_State) (a a' : Address) (sid : Nat) :
    connCursor s a' sid ≤ connCursor (getOrCreateConnection s a).2 a' sid := by
  unfold getOrCreateConnection
  cases hf : s.connections.find? (fun c => decide (c.address = a)) with
  | some c => exact le_refl _
  | none =>
    simp only
    unfold connCursor
    rw [List.find?_append]
    cases hf' : s.connections.find? (fun c => decide (c.address = a')) with
    | some c' => simp [hf']
    | none => simp [hf']

theorem getOrCreate_address (s : MY_QUIC_State) (a : Address) :
    (getOrCreateConnection s a).1.address = a := by
  unfold getOrCreateConnection
  cases hf : s.connections.find? (fun c => decide (c.address = a)) with
  | some c =>
    have := List.find?_some hf
    simpa using this
  | none => rfl

theorem getOrCreate_find (s : MY_QUIC_State) (a : Address) :
    (getOrCreateConnection s a).2.connections.find? (fun c => decide (c.address = a))
      = some (getOrCreateConnection s a).1 := by
  unfold getOrCreateConnection
  cases hf : s.connections.find? (fun c => decide (c.address = a)) with
  | some c => simpa using hf
  | none =>
    simp only [List.find?_append, hf, Option.none_or]
    simp [List.find?]

theorem connCursor_setConnection_le (l : List Connection) (c c2 : Connection)
    (a2 : Address) (sid : Nat)
    (hfind : l.find? (fun c0 => decide (c0.address = c.address)) = some c)
    (haddr : c2.address = c.address)
    (hcur : ∀ t, c.cursor t ≤ c2.cursor t) :
    connCursor ⟨l⟩ a2 sid ≤ connCursor ⟨setConnection l c2⟩ a2 sid := by
  by_cases ha : a2 = c.address
  · subst ha
    rw [← haddr] at hfind ⊢
    unfold connCursor
    simp only
    rw [hfind, find?_setConnection_same l c2 (by rw [hfind]; rfl)]
    exact hcur sid
  · unfold connCursor
    simp only
    rw [find?_setConnection_other l c2 a2 (fun hc => ha (hc.trans haddr))]

theorem receiveData_cursor_mono (s : MY_QUIC_State) (a : Address) (d : List Nat) (m : Nat)
    (r) (h : receiveData s a d m = .ok r) (a2 : Address) (sid : Nat) :
    connCursor s a2 sid ≤ connCursor r.1 a2 sid := by
  simp only [receiveData] at h
  cases hdr : PacketHeader.deserialize (d.take 5) with
  | none =>
    rw [hdr] at h
    exact (Except.noConfusion h)
  | some header =>
    simp only [hdr] at h
    by_cases ht : header.type = SHORT_PACKET
    · rw [if_pos ht] at h
      cases hpf : processFrames { (getOrCreateConnection s a).1 with
          receivedPackets := (getOrCreateConnection s a).1.receivedPackets + 1 }
          (d.drop 5) m 0 [] [] with
      | error e =>
        simp only [hpf] at h
        exact (Except.noConfusion h)
      | ok triple =>
        obtain ⟨conn2, receivedObjects, ackPayload⟩ := triple
        simp only [hpf] at h
        cases hser : PacketHeader.serialize ⟨ACK_FRAME, header.number⟩ with
        | none =>
          simp only [hser] at h
          exact (Except.noConfusion h)
        | some ackHeaderBytes =>
          simp only [hser] at h
          cases h
          refine le_trans (getOrCreate_cursor_le s a a2 sid) ?_
          refine connCursor_setConnection_le (getOrCreateConnection s a).2.connections
            (getOrCreateConnection s a).1
            { conn2 with sentPackets := conn2.sentPackets + 1 } a2 sid ?_ ?_ ?_
          · rw [getOrCreate_address s a]
            exact getOrCreate_find s a
          · show conn2.address = _
            exact processFrames_address _ _ _ _ _ _ _ hpf
          · intro t
            show (getOrCreateConnection s a).1.cursor t ≤ conn2.cursor t
            exact processFrames_cursor_mono _ _ _ _ _ _ _ hpf t
    · rw [if_neg ht] at h
      cases h
      exact getOrCreate_cursor_le s a a2 sid

theorem runReceives_cursor_mono (events : List (Address × List Nat × Nat))
    (s : MY_QUIC_State) (a2 : Address) (sid : Nat) :
    connCursor s a2 sid ≤ connCursor (runReceives s events) a2 sid := by
  induction events generalizing s with
  | nil => exact le_refl _
  | cons ev rest ih =>
    obtain ⟨a, d, m⟩ := ev
    rw [runReceives]
    cases hr : receiveData s a d m with
    | ok r => exact le_trans (receiveData_cursor_mono s a d m r hr a2 sid) (ih r.1)
    | error e => exact le_refl _


/-! ## Claim theorems: receive engine and wire codec -/

/-- C1: for every received data frame on a stream of a connection, the
recorded cursor (`streamBytesReceived[streamId]`, defaulting to 0 for a new
stream) becomes `cursor + frame.length` exactly when `frame.offset` equals
the current cursor and is left unchanged otherwise; consequently the cursor
is non-decreasing across every sequence of receive operations. -/
theorem claim_C1_cursor_step_and_monotone :
    (∀ (conn : Connection) (f : Frame) (dataBytes : List Nat) (total maxB : Nat)
        (objs : List (Nat × List Nat)) (res),
        frameStep conn f dataBytes total maxB objs = .ok res →
        res.1.cursor f.streamId =
          (if f.offset = conn.cursor f.streamId then conn.cursor f.streamId + f.length
           else conn.cursor f.streamId)) ∧
    (∀ (s : MY_QUIC_State) (events : List (Address × List Nat × Nat)) (a : Address) (sid : Nat),
        connCursor s a sid ≤ connCursor (runReceives s events) a sid) :=
  ⟨fun conn f dataBytes total maxB objs res h =>
      frameStep_cursor_eq conn f dataBytes total maxB objs res h,
   fun s events a sid => runReceives_cursor_mono events s a sid⟩

theorem claim_C1_witness :
    ((⟨("peer", 1), 0, 0, 0, [(1, 8)], []⟩ : Connection), (3 : Nat), [(1, [9, 9, 9])],
        [0, 0, 0, 1, 0, 0, 0, 6, 0, 0, 0, 0, 0, 0, 0, 8, 0, 0, 0, 0]).1.cursor 1 =
      (if 5 = (⟨("peer", 1), 0, 0, 0, [(1, 5)], []⟩ : Connection).cursor 1
       then (⟨("peer", 1), 0, 0, 0, [(1, 5)], []⟩ : Connection).cursor 1 + 3
       else (⟨("peer", 1), 0, 0, 0, [(1, 5)], []⟩ : Connection).cursor 1) ∧
    connCursor ⟨[]⟩ ("peer", 1) 7 ≤
      connCursor (runReceives ⟨[]⟩ [(("peer", 1), [3, 0, 0, 0, 0], 65536)]) ("peer", 1) 7 :=
  ⟨claim_C1_cursor_step_and_monotone.1 ⟨("peer", 1), 0, 0, 0, [(1, 5)], []⟩ ⟨1, 5, 5, 3⟩
      [9, 9, 9] 0 100 []
      (⟨("peer", 1), 0, 0, 0, [(1, 8)], []⟩, 3, [(1, [9, 9, 9])],
        [0, 0, 0, 1, 0, 0, 0, 6, 0, 0, 0, 0, 0, 0, 0, 8, 0, 0, 0, 0]) (by decide),
   claim_C1_cursor_step_and_monotone.2 ⟨[]⟩ [(("peer", 1), [3, 0, 0, 0, 0], 65536)] ("peer", 1) 7⟩

/-- C2 counterexample: a frame with `offset = 3` on a fresh stream (cursor 0)
is out of order, yet `receiveData` stores its payload `[42, 43]` in the
returned result map under stream 7 (while the cursor stays 0 and the ACK
frame carries offset 0), contradicting the claim that the payload is not
included in the result map. -/
theorem claim_C2_counterexample :
    receiveData ⟨[]⟩ ("peer", 1)
        [3, 0, 0, 0, 0,
         0, 0, 0, 7, 0, 0, 0, 5, 0, 0, 0, 0, 0, 0, 0, 3, 0, 0, 0, 2, 42, 43] 65536
      = .ok (⟨[⟨("peer", 1), 0, 1, 1, [(7, 0)], []⟩]⟩, ("peer", 1), [(7, [42, 43])],
          some [6, 0, 0, 0, 0,
                0, 0, 0, 7, 0, 0, 0, 6, 0, 0, 0, 0, 0, 0, 0, 0, 0, 0, 0, 0]) := by
  decide

/-- C2 (amended): for every frame whose offset differs from the stream's
cursor, the cursor is unchanged and the synthesized ACK frame carries
`offset = pre-frame cursor`; the frame's payload, however, IS stored in the
returned result map under its stream id (overwriting any earlier entry)
whenever the running received-byte total fits within `max_bytes` — it is not
excluded as the claim states. -/
theorem claim_C2_out_of_order_amended (conn : Connection) (f : Frame) (dataBytes : List Nat)
    (total maxB : Nat) (objs : List (Nat × List Nat))
    (hne : f.offset ≠ conn.cursor f.streamId)
    (hsid : f.streamId < 2 ^ 32) (hcur : conn.cursor f.streamId < 2 ^ 64) :
    ∃ conn2 ackBytes,
      frameStep conn f dataBytes total maxB objs =
        .ok (conn2, total + f.length,
          (if total + f.length ≤ maxB then dictSet objs f.streamId dataBytes else objs),
          ackBytes) ∧
      conn2.cursor f.streamId = conn.cursor f.streamId ∧
      Frame.deserialize ackBytes = some ⟨f.streamId, ACK_FRAME, conn.cursor f.streamId, 0⟩ := by
  have hser : Frame.serialize ⟨f.streamId, ACK_FRAME, conn.cursor f.streamId, 0⟩
      = some (encBE 4 f.streamId ++ encBE 4 ACK_FRAME ++
          encBE 8 (conn.cursor f.streamId) ++ encBE 4 0) := by
    unfold Frame.serialize
    rw [if_pos ⟨hsid, by norm_num [ACK_FRAME], hcur, by norm_num⟩]
  refine ⟨{ conn with streamBytesReceived :=
      (if (dictGet conn.streamBytesReceived f.streamId).isSome then conn.streamBytesReceived
       else dictSet conn.streamBytesReceived f.streamId 0) },
    encBE 4 f.streamId ++ encBE 4 ACK_FRAME ++ encBE 8 (conn.cursor f.streamId) ++ encBE 4 0,
    ?_, ?_, ?_⟩
  · simp only [frameStep]
    rw [cursor_init_eq conn f.streamId, if_neg hne, if_neg hne, hser]
  · rw [cursor_mk]
    exact cursor_init_eq conn f.streamId
  · exact Frame.deserialize_serialize_frame _ _ hser

theorem claim_C2_witness :
    ∃ conn2 ackBytes,
      frameStep ⟨("peer", 1), 0, 0, 0, [], []⟩ ⟨7, 5, 3, 2⟩ [42, 43] 0 65536 [] =
        .ok (conn2, 0 + 2,
          (if 0 + 2 ≤ 65536 then dictSet [] 7 [42, 43] else []), ackBytes) ∧
      conn2.cursor 7 = (⟨("peer", 1), 0, 0, 0, [], []⟩ : Connection).cursor 7 ∧
      Frame.deserialize ackBytes =
        some ⟨7, ACK_FRAME, (⟨("peer", 1), 0, 0, 0, [], []⟩ : Connection).cursor 7, 0⟩ :=
  claim_C2_out_of_order_amended ⟨("peer", 1), 0, 0, 0, [], []⟩ ⟨7, 5, 3, 2⟩ [42, 43] 0 65536 []
    (by decide) (by decide) (by decide)

/-- C5 counterexample: decoding the 3-byte datagram `[1, 2, 3]` fails, and
the failure (Python: `struct.error` from `PacketHeader.deserialize`) escapes
`receive_data` to its caller as an uncaught exception — contradicting the
claim that the error does not escape the engine boundary. -/
theorem claim_C5_counterexample :
    receiveData ⟨[]⟩ ("peer", 1) [1, 2, 3] 65536 = .error "struct.error" := by
  decide

/-- C5 (amended): for every buffer shorter than the 5-byte header, decoding
fails without reading past the buffer (`PacketHeader.deserialize` yields no
value, as does `Frame.deserialize` on any buffer shorter than 20 bytes), but
inside `receive_data` this failure is not handled: it propagates out of the
engine as an uncaught exception. -/
theorem claim_C5_short_buffer_amended (s : MY_QUIC_State) (a : Address) (m : Nat)
    (d : List Nat) (hd : d.length < 5) :
    receiveData s a d m = .error "struct.error" ∧
    PacketHeader.deserialize d = none ∧
    (∀ b : List Nat, b.length < 20 → Frame.deserialize b = none) := by
  have hds : PacketHeader.deserialize d = none := by
    unfold PacketHeader.deserialize
    rw [if_neg (by omega)]
  refine ⟨?_, hds, ?_⟩
  · simp only [receiveData]
    rw [List.take_of_length_le (by omega), hds]
  · intro b hb
    unfold Frame.deserialize
    rw [if_neg (by omega)]

theorem claim_C5_witness :
    receiveData ⟨[]⟩ ("x", 2) [7] 9 = .error "struct.error" ∧
    PacketHeader.deserialize [7] = none ∧
    (∀ b : List Nat, b.length < 20 → Frame.deserialize b = none) :=
  claim_C5_short_buffer_amended ⟨[]⟩ ("x", 2) 9 [7] (by decide)

/-- C7: serializing a `PacketHeader` yields exactly 5 big-endian bytes and a
`Frame` exactly 20 big-endian bytes, and deserialization reconstructs the
original value for field values within the stated unsigned widths. -/
theorem claim_C7_roundtrip (h : PacketHeader) (f : Frame)
    (hh1 : h.type < 256) (hh2 : h.number < 2 ^ 32)
    (hf1 : f.streamId < 2 ^ 32) (hf2 : f.type < 2 ^ 32)
    (hf3 : f.offset < 2 ^ 64) (hf4 : f.length < 2 ^ 32) :
    ∃ hb fb, h.serialize = some hb ∧ hb.length = 5 ∧
      PacketHeader.deserialize hb = some h ∧
      f.serialize = some fb ∧ fb.length = 20 ∧ Frame.deserialize fb = some f := by
  have hsh : h.serialize = some (encBE 1 h.type ++ encBE 4 h.number) := by
    unfold PacketHeader.serialize
    rw [if_pos ⟨hh1, hh2⟩]
  have hsf : f.serialize = some (encBE 4 f.streamId ++ encBE 4 f.type ++
      encBE 8 f.offset ++ encBE 4 f.length) := by
    unfold Frame.serialize
    rw [if_pos ⟨hf1, hf2, hf3, hf4⟩]
  exact ⟨_, _, hsh, PacketHeader.serialize_length_5 h _ hsh,
    PacketHeader.deserialize_serialize_header h _ hsh, hsf,
    Frame.serialize_length_20 f _ hsf, Frame.deserialize_serialize_frame f _ hsf⟩

theorem claim_C7_witness :
    ∃ hb fb, (⟨3, 7⟩ : PacketHeader).serialize = some hb ∧ hb.length = 5 ∧
      PacketHeader.deserialize hb = some ⟨3, 7⟩ ∧
      (⟨1, 5, 2, 3⟩ : Frame).serialize = some fb ∧ fb.length = 20 ∧
      Frame.deserialize fb = some ⟨1, 5, 2, 3⟩ :=
  claim_C7_roundtrip ⟨3, 7⟩ ⟨1, 5, 2, 3⟩ (by decide) (by decide) (by decide) (by decide)
    (by decide) (by decide)



theorem getOrCreateConnection_of_found (s : MY_QUIC_State) (a : Address) (c : Connection)
    (h : s.connections.find? (fun c0 => decide (c0.address = a)) = some c) :
    getOrCreateConnection s a = (c, s) := by
  unfold getOrCreateConnection
  rw [h]

theorem getOrCreateConnection_of_none (s : MY_QUIC_State) (a : Address)
    (h : s.connections.find? (fun c0 => decide (c0.address = a)) = none) :
    getOrCreateConnection s a
      = (⟨a, s.connections.length, 0, 0, [], []⟩,
         ⟨s.connections ++ [⟨a, s.connections.length, 0, 0, [], []⟩]⟩) := by
  unfold getOrCreateConnection
  rw [h]

theorem filter_addr_length_le_one (l : List Connection)
    (hn : (l.map (fun c => c.address)).Nodup) (a2 : Address) :
    (l.filter (fun c => decide (c.address = a2))).length ≤ 1 := by
  induction l with
  | nil => simp
  | cons c rest ih =>
    simp only [List.map_cons, List.nodup_cons] at hn
    by_cases ha : c.address = a2
    · have hrest : rest.filter (fun c0 => decide (c0.address = a2)) = [] := by
        rw [List.filter_eq_nil_iff]
        intro x hx
        simp only [decide_eq_true_eq]
        intro hxa
        exact hn.1 (by rw [← ha] at hxa; exact (List.mem_map.mpr ⟨x, hx, hxa⟩))
      simp [List.filter_cons, ha, hrest]
    · simp only [List.filter_cons, decide_eq_false ha, Bool.false_eq_true, if_false]
      exact ih hn.2

/-- C9: `getOrCreateConnection` is the only constructor of `Connection`
records: looking up an address returns a connection with that address,
creates it lazily (fresh counters and maps, id = current registry size,
appended to the list) exactly when the address was unseen, a second
lookup-or-create returns the very same record and state, address uniqueness
of the registry is preserved, and at most one stored connection ever has a
given address. -/
theorem claim_C9_registry (s : MY_QUIC_State) (a : Address)
    (hok : (s.connections.map (fun c => c.address)).Nodup) :
    (getOrCreateConnection s a).1.address = a ∧
    ((getOrCreateConnection s a).2.connections.map (fun c => c.address)).Nodup ∧
    getOrCreateConnection (getOrCreateConnection s a).2 a
      = ((getOrCreateConnection s a).1, (getOrCreateConnection s a).2) ∧
    (s.connections.find? (fun c => decide (c.address = a)) = none →
      (getOrCreateConnection s a).1 = ⟨a, s.connections.length, 0, 0, [], []⟩ ∧
      (getOrCreateConnection s a).2.connections
        = s.connections ++ [(getOrCreateConnection s a).1]) ∧
    (∀ a2 : Address, ((getOrCreateConnection s a).2.connections.filter
        (fun c => decide (c.address = a2))).length ≤ 1) := by
  have hnodup2 : ((getOrCreateConnection s a).2.connections.map (fun c => c.address)).Nodup := by
    unfold getOrCreateConnection
    cases hf : s.connections.find? (fun c => decide (c.address = a)) with
    | some c => exact hok
    | none =>
      simp only [List.map_append, List.map_cons, List.map_nil]
      rw [List.nodup_append]
      refine ⟨hok, List.nodup_singleton a, ?_⟩
      intro x hx
      simp only [List.mem_singleton]
      intro hxa
      subst hxa
      obtain ⟨c, hc, hca⟩ := List.mem_map.mp hx
      have := List.find?_eq_none.mp hf c hc
      simp only [decide_eq_true_eq] at this
      exact this hca
  refine ⟨getOrCreate_address s a, hnodup2, ?_, ?_, ?_⟩
  · exact getOrCreateConnection_of_found _ a _ (getOrCreate_find s a)
  · intro hf
    rw [getOrCreateConnection_of_none s a hf]
    exact ⟨rfl, rfl⟩
  · intro a2
    exact filter_addr_length_le_one _ hnodup2 a2

theorem claim_C9_witness :
    (getOrCreateConnection ⟨[]⟩ ("localhost", 9999)).1.address = ("localhost", 9999) ∧
    ((getOrCreateConnection ⟨[]⟩ ("localhost", 9999)).2.connections.map
      (fun c => c.address)).Nodup ∧
    getOrCreateConnection (getOrCreateConnection ⟨[]⟩ ("localhost", 9999)).2 ("localhost", 9999)
      = ((getOrCreateConnection ⟨[]⟩ ("localhost", 9999)).1,
         (getOrCreateConnection ⟨[]⟩ ("localhost", 9999)).2) ∧
    ((MY_QUIC_State.connections ⟨[]⟩).find?
        (fun c => decide (c.address = ("localhost", 9999))) = none →
      (getOrCreateConnection ⟨[]⟩ ("localhost", 9999)).1
        = ⟨("localhost", 9999), (MY_QUIC_State.connections ⟨[]⟩).length, 0, 0, [], []⟩ ∧
      (getOrCreateConnection ⟨[]⟩ ("localhost", 9999)).2.connections
        = MY_QUIC_State.connections ⟨[]⟩ ++ [(getOrCreateConnection ⟨[]⟩ ("localhost", 9999)).1]) ∧
    (∀ a2 : Address, ((getOrCreateConnection ⟨[]⟩ ("localhost", 9999)).2.connections.filter
        (fun c => decide (c.address = a2))).length ≤ 1) :=
  claim_C9_registry ⟨[]⟩ ("localhost", 9999) (by decide)


theorem processFramesAux_nil (maxB bound : Nat) (conn : Connection) (total : Nat)
    (objs : List (Nat × List Nat)) (ackP : List Nat) :
    processFramesAux maxB bound conn [] total objs ackP = .ok (conn, objs, ackP) := by
  cases bound <;> simp [processFramesAux]

/-- C10: `receiveData` trusts a frame's declared `length`: when the declared
length `L` exceeds the payload bytes actually present in the datagram, the
operation succeeds, stores the shorter truncated slice in the result map,
and still advances the stream cursor (and the per-datagram byte budget) by
the full declared `L` — so the cursor advance exceeds the number of payload
bytes delivered. -/
theorem claim_C10_trusted_length (addr : Address) (sid L n maxB : Nat) (payload : List Nat)
    (hsid : sid < 2 ^ 32) (hL : L < 2 ^ 32) (hn : n < 2 ^ 32)
    (hshort : payload.length < L) (hbudget : L ≤ maxB) :
    receiveData ⟨[]⟩ addr
        ((encBE 1 SHORT_PACKET ++ encBE 4 n) ++
         ((encBE 4 sid ++ encBE 4 DATA_FRAME ++ encBE 8 0 ++ encBE 4 L) ++ payload)) maxB
      = .ok (⟨[⟨addr, 0, 1, 1, [(sid, L)], []⟩]⟩, addr, [(sid, payload)],
             some (encBE 1 ACK_FRAME ++ encBE 4 n ++ encBE 4 sid ++ encBE 4 ACK_FRAME ++
                   encBE 8 L ++ encBE 4 0)) ∧
    connCursor ⟨[⟨addr, 0, 1, 1, [(sid, L)], []⟩]⟩ addr sid = L ∧
    payload.length < L := by
  have hsh : PacketHeader.serialize ⟨SHORT_PACKET, n⟩
      = some (encBE 1 SHORT_PACKET ++ encBE 4 n) := by
    unfold PacketHeader.serialize
    rw [if_pos ⟨by norm_num [SHORT_PACKET], hn⟩]
  have hdr := PacketHeader.deserialize_serialize_header _ _ hsh
  have hlh : (encBE 1 SHORT_PACKET ++ encBE 4 n).length = 5 :=
    PacketHeader.serialize_length_5 _ _ hsh
  have hsf : Frame.serialize ⟨sid, DATA_FRAME, 0, L⟩
      = some (encBE 4 sid ++ encBE 4 DATA_FRAME ++ encBE 8 0 ++ encBE 4 L) := by
    unfold Frame.serialize
    rw [if_pos ⟨hsid, by norm_num [DATA_FRAME], by norm_num, hL⟩]
  have hfr := Frame.deserialize_serialize_frame _ _ hsf
  have hlf : (encBE 4 sid ++ encBE 4 DATA_FRAME ++ encBE 8 0 ++ encBE 4 L).length = 20 :=
    Frame.serialize_length_20 _ _ hsf
  have hserAck : Frame.serialize ⟨sid, ACK_FRAME, L, 0⟩
      = some (encBE 4 sid ++ encBE 4 ACK_FRAME ++ encBE 8 L ++ encBE 4 0) := by
    unfold Frame.serialize
    rw [if_pos ⟨hsid, by norm_num [ACK_FRAME], lt_trans hL (by norm_num), by norm_num⟩]
  have hserH : PacketHeader.serialize ⟨ACK_FRAME, n⟩
      = some (encBE 1 ACK_FRAME ++ encBE 4 n) := by
    unfold PacketHeader.serialize
    rw [if_pos ⟨by norm_num [ACK_FRAME], hn⟩]
  refine ⟨?_, ?_, hshort⟩
  · simp only [receiveData]
    rw [List.take_left' hlh, List.drop_left' hlh]
    simp only [hdr]
    rw [if_pos trivial]
    rw [getOrCreateConnection_of_none ⟨[]⟩ addr rfl]
    simp only [processFrames]
    have hlen : ((encBE 4 sid ++ encBE 4 DATA_FRAME ++ encBE 8 0 ++ encBE 4 L) ++ payload).length
        = payload.length + 19 + 1 := by
      rw [List.length_append, hlf]
      omega
    rw [hlen]
    rw [processFramesAux]
    rw [if_pos (by rw [List.length_append, hlf]; omega)]
    rw [List.take_left' hlf]
    simp only [hfr]
    rw [List.drop_left' hlf]
    simp only [frameStep]
    simp [dictGet, dictSet, List.find?_cons, List.find?_nil, hserAck, hserH,
      processFramesAux_nil, setConnection, if_pos hbudget,
      List.take_of_length_le (le_of_lt hshort), List.drop_eq_nil_of_le (le_of_lt hshort)]
  · simp [connCursor, List.find?_cons, dictGet]


theorem claim_C10_witness :
    receiveData ⟨[]⟩ ("peer", 1)
        ((encBE 1 SHORT_PACKET ++ encBE 4 0) ++
         ((encBE 4 2 ++ encBE 4 DATA_FRAME ++ encBE 8 0 ++ encBE 4 5) ++ [9, 9, 9])) 65536
      = .ok (⟨[⟨("peer", 1), 0, 1, 1, [(2, 5)], []⟩]⟩, ("peer", 1), [(2, [9, 9, 9])],
             some (encBE 1 ACK_FRAME ++ encBE 4 0 ++ encBE 4 2 ++ encBE 4 ACK_FRAME ++
                   encBE 8 5 ++ encBE 4 0)) ∧
    connCursor ⟨[⟨("peer", 1), 0, 1, 1, [(2, 5)], []⟩]⟩ ("peer", 1) 2 = 5 ∧
    ([9, 9, 9] : List Nat).length < 5 :=
  claim_C10_trusted_length ("peer", 1) 2 5 0 65536 [9, 9, 9] (by decide) (by decide)
    (by decide) (by decide) (by decide)



/-! ## Claim theorems: send engine -/

/-- Bytes of `b"Hi there"`. -/
def hiThere : List Nat := [72, 105, 32, 116, 104, 101, 114, 101]

/-- Sum over all requested streams of the final frame offset: the total of
peer-accepted application bytes that the spec says `sendData` returns. -/
def sumFinalOffsets (r : SendResult) : Nat :=
  r.store.foldl (fun acc p => acc + p.2.offset) 0

/-- The single data datagram `sendData` emits for `{1: b"Hi there"}` with a
chunk-size draw of 1000: header `(SHORT_PACKET, 0)` and one frame
`(1, DATA_FRAME, 0, 8)` followed by the 8 payload bytes. -/
def hiDatagram : List Nat :=
  [3, 0, 0, 0, 0, 0, 0, 0, 1, 0, 0, 0, 5, 0, 0, 0, 0, 0, 0, 0, 0, 0, 0, 0, 8] ++ hiThere

/-- ACK datagram produced by a fresh responsive peer (`receiveData`) on
`hiDatagram`. -/
def hiAck : List Nat :=
  match receiveData ⟨[]⟩ ("client", 1) hiDatagram MAX_RECEIVE_BYTES with
  | .ok r => (r.2.2.2).getD []
  | .error _ => []

/-- Receive-oracle for the `{1: b"Hi there"}` scenario: the peer answers the
first transmission with its real ACK, and no further events occur. -/
def hiOracle (k : Nat) : Option (List Nat) :=
  if k = 0 then some hiAck else none

/-- C3 (code bug): sending `{1: b"Hi there"}` (8 bytes) to a fully
responsive peer — the ACK fed back is the one the real receive engine
produces for the actually transmitted datagram, and that peer's result map
is exactly `{1: b"Hi there"}` — completes without retransmission or error,
leaves the peer-accepted offset sum at 8, yet returns a total of 0: the
accumulation of `total_bytes_sent_data` sits inside the
`if frames[0].offset > 50:` statistics block, so the claimed return value 8
is never produced for this input. -/
theorem claim_C3_hi_there_returns_zero :
    (sendData ⟨MAX_FRAMES_FOR_PACKET, MAX_RETRIES⟩ [(1, hiThere)] (fun _ => 1000)
        (fun _ ids => ids) hiOracle [] 0 3).map (fun e => e.map (fun r =>
          (r.total, sumFinalOffsets r, r.unresponsive,
           r.transmissions.map (fun t => t.bytes))))
      = some (.ok (0, 8, false, [hiDatagram])) ∧
    (receiveData ⟨[]⟩ ("client", 1) hiDatagram MAX_RECEIVE_BYTES).toOption.map
      (fun r => r.2.2.1) = some [(1, hiThere)] := by
  decide

/-- Second stream of the C4 scenario: 1001 bytes, so a 1000-byte chunk
leaves one byte for a second datagram. -/
def c4Stream2 : List Nat := List.replicate 1001 7

/-- First datagram of the C4 scenario: packet 0 carrying stream 1 fully
(8 bytes) and the first 1000 bytes of stream 2. -/
def c4Datagram0 : List Nat :=
  [3, 0, 0, 0, 0] ++
  ([0, 0, 0, 1, 0, 0, 0, 5, 0, 0, 0, 0, 0, 0, 0, 0, 0, 0, 0, 8] ++ hiThere) ++
  ([0, 0, 0, 2, 0, 0, 0, 5, 0, 0, 0, 0, 0, 0, 0, 0, 0, 0, 3, 232] ++ List.replicate 1000 7)

/-- The real peer's ACK for `c4Datagram0`. -/
def c4Ack : List Nat :=
  match receiveData ⟨[]⟩ ("client", 1) c4Datagram0 MAX_RECEIVE_BYTES with
  | .ok r => (r.2.2.2).getD []
  | .error _ => []

/-- A stale/foreign ACK: packet number 5 does not match the outstanding
packet 1. -/
def c4StaleAck : List Nat := [6, 0, 0, 0, 5]

/-- Receive-oracle for the C4 scenario: a valid ACK for packet 0, then a
mismatched ACK followed by timeouts for packet 1. -/
def c4Oracle (k : Nat) : Option (List Nat) :=
  if k = 0 then some c4Ack else if k = 1 then some c4StaleAck else none

/-- C4 (code bug): after packet 0 is acknowledged by the real peer (8 bytes
of stream 1 and 1000 bytes of stream 2 accepted), packet 1 gets a mismatched
ACK (silently discarded) and then only timeouts: it is transmitted exactly
`MAX_RETRIES` (4) times, the send loop aborts with the peer-unresponsive
flag instead of blocking — but the call returns 0, not the accumulated total
of 1008 bytes, because of the same accounting slip as in C3
(`frames[0].offset = 8 ≤ 50`). -/
theorem claim_C4_retry_exhaustion_total :
    (sendData ⟨MAX_FRAMES_FOR_PACKET, MAX_RETRIES⟩ [(1, hiThere), (2, c4Stream2)]
        (fun _ => 1000) (fun _ ids => ids) c4Oracle [] 0 5).map (fun e => e.map (fun r =>
          (r.total, sumFinalOffsets r, r.unresponsive,
           r.transmissions.map (fun t => t.number),
           (r.transmissions.filter (fun t => decide (t.number = 1))).length)))
      = some (.ok (0, 1008, true, [0, 1, 1, 1, 1], MAX_RETRIES)) := by
  decide



/-! ## Helper lemmas about the send engine -/

theorem dictGet_of_mem_nodup {β : Type} (d : List (Nat × β)) (k : Nat) (v : β)
    (hn : (d.map Prod.fst).Nodup) (hm : (k, v) ∈ d) : dictGet d k = some v := by
  induction d with
  | nil => cases hm
  | cons p rest ih =>
    simp only [List.map_cons, List.nodup_cons] at hn
    rcases List.mem_cons.mp hm with he | hm2
    · rw [← he]
      simp [dictGet, List.find?_cons]
    · by_cases hp : p.1 = k
      · exact absurd (List.mem_map.mpr ⟨(k, v), hm2, rfl⟩) (hp ▸ hn.1)
      · simp only [dictGet, List.find?_cons, decide_eq_false hp]
        exact ih hn.2 hm2

theorem filter_mem_length_le (snap sel : List Nat) (h : snap.Nodup) :
    (snap.filter (fun s => decide (s ∈ sel))).length ≤ sel.length := by
  have h1 : (snap.filter (fun s => decide (s ∈ sel))).Nodup := h.filter _
  have h2 : ∀ x ∈ snap.filter (fun s => decide (s ∈ sel)), x ∈ sel := by
    intro x hx
    simpa using List.of_mem_filter hx
  calc (snap.filter (fun s => decide (s ∈ sel))).length
      = (snap.filter (fun s => decide (s ∈ sel))).toFinset.card :=
        (List.toFinset_card_of_nodup h1).symm
    _ ≤ sel.toFinset.card :=
        Finset.card_le_card (fun x hx => List.mem_toFinset.mpr (h2 x (List.mem_toFinset.mp hx)))
    _ ≤ sel.length := sel.toFinset_card_le

theorem prepFrames_sublist (dd : List (Nat × List Nat)) (ss : Nat → Nat) (sel : List Nat) :
    ∀ (snap fts : List Nat) (store : List (Nat × SFrame)) (pb : List Nat)
      (txf : List TxFrame) (r),
      prepFrames dd ss sel snap fts store pb txf = .ok r → List.Sublist r.1 fts := by
  intro snap
  induction snap with
  | nil =>
    intro fts store pb txf r h
    cases h
    exact List.Sublist.refl _
  | cons sid snap ih =>
    intro fts store pb txf r h
    simp only [prepFrames] at h
    repeat' split at h
    all_goals first
      | exact (Except.noConfusion h)
      | exact ih _ _ _ _ _ h
      | exact (ih _ _ _ _ _ h).trans (List.erase_sublist _ _)

theorem prepFrames_frames_count (dd : List (Nat × List Nat)) (ss : Nat → Nat) (sel : List Nat) :
    ∀ (snap fts : List Nat) (store : List (Nat × SFrame)) (pb : List Nat)
      (txf : List TxFrame) (r),
      prepFrames dd ss sel snap fts store pb txf = .ok r →
      r.2.2.2.length ≤ txf.length + (snap.filter (fun s => decide (s ∈ sel))).length := by
  intro snap
  induction snap with
  | nil =>
    intro fts store pb txf r h
    cases h
    simp
  | cons sid snap ih =>
    intro fts store pb txf r h
    rw [prepFrames] at h
    by_cases hsel : sid ∈ sel
    · rw [if_pos hsel] at h
      rw [List.filter_cons, if_pos (show decide (sid ∈ sel) = true by simp [hsel])]
      simp only [List.length_cons]
      simp only [] at h
      split at h
      · have := ih _ _ _ _ _ h
        omega
      · split at h
        · exact (Except.noConfusion h)
        · split at h
          · exact (Except.noConfusion h)
          · have := ih _ _ _ _ _ h
            simp only [List.length_append, List.length_cons, List.length_nil] at this
            omega
    · rw [if_neg hsel] at h
      rw [List.filter_cons, if_neg (show ¬decide (sid ∈ sel) = true by simp [hsel])]
      exact ih _ _ _ _ _ h

theorem prepFrames_frames_ids (dd : List (Nat × List Nat)) (ss : Nat → Nat) (sel : List Nat) :
    ∀ (snap fts : List Nat) (store : List (Nat × SFrame)) (pb : List Nat)
      (txf : List TxFrame) (r),
      prepFrames dd ss sel snap fts store pb txf = .ok r →
      ∀ t ∈ r.2.2.2, t ∈ txf ∨ t.streamId ∈ snap := by
  intro snap
  induction snap with
  | nil =>
    intro fts store pb txf r h t ht
    cases h
    exact Or.inl ht
  | cons sid snap ih =>
    intro fts store pb txf r h t ht
    rw [prepFrames] at h
    by_cases hsel : sid ∈ sel
    · rw [if_pos hsel] at h
      simp only [] at h
      split at h
      · rcases ih _ _ _ _ _ h t ht with h1 | h2
        · exact Or.inl h1
        · exact Or.inr (List.mem_cons_of_mem _ h2)
      · split at h
        · exact (Except.noConfusion h)
        · split at h
          · exact (Except.noConfusion h)
          · rcases ih _ _ _ _ _ h t ht with h1 | h2
            · rcases List.mem_append.mp h1 with h3 | h4
              · exact Or.inl h3
              · rw [List.mem_singleton.mp h4]
                exact Or.inr (List.mem_cons_self _ _)
            · exact Or.inr (List.mem_cons_of_mem _ h2)
    · rw [if_neg hsel] at h
      rcases ih _ _ _ _ _ h t ht with h1 | h2
      · exact Or.inl h1
      · exact Or.inr (List.mem_cons_of_mem _ h2)

theorem prepFrames_store_other (dd : List (Nat × List Nat)) (ss : Nat → Nat) (sel : List Nat)
    (k : Nat) :
    ∀ (snap fts : List Nat) (store : List (Nat × SFrame)) (pb : List Nat)
      (txf : List TxFrame) (r),
      prepFrames dd ss sel snap fts store pb txf = .ok r →
      k ∉ snap → dictGet r.2.1 k = dictGet store k := by
  intro snap
  induction snap with
  | nil =>
    intro fts store pb txf r h _
    cases h
    rfl
  | cons sid snap ih =>
    intro fts store pb txf r h hk
    have hk1 : k ≠ sid := fun he => hk (he ▸ List.mem_cons_self _ _)
    have hk2 : k ∉ snap := fun hm => hk (List.mem_cons_of_mem _ hm)
    rw [prepFrames] at h
    by_cases hsel : sid ∈ sel
    · rw [if_pos hsel] at h
      simp only [] at h
      split at h
      · exact ih _ _ _ _ _ h hk2
      · split at h
        · exact (Except.noConfusion h)
        · split at h
          · exact (Except.noConfusion h)
          · rw [ih _ _ _ _ _ h hk2, dictGet_dictSet_ne _ _ _ _ hk1]
    · rw [if_neg hsel] at h
      exact ih _ _ _ _ _ h hk2



theorem prepFrames_empty_stream (dd : List (Nat × List Nat)) (ss : Nat → Nat)
    (sel : List Nat) (sid : Nat) :
    ∀ (snap fts : List Nat) (store : List (Nat × SFrame)) (pb : List Nat)
      (txf : List TxFrame) (r),
      prepFrames dd ss sel snap fts store pb txf = .ok r →
      snap.Nodup → fts.Nodup →
      sid ∈ snap → sid ∈ sel →
      dictGet dd sid = some [] →
      (dictGet store sid).map (fun f => f.offset) = some 0 →
      (∀ t ∈ txf, t.streamId ≠ sid) →
      sid ∉ r.1 ∧ dictGet r.2.1 sid = dictGet store sid ∧
        (∀ t ∈ r.2.2.2, t.streamId ≠ sid) := by
  intro snap
  induction snap with
  | nil =>
    intro fts store pb txf r h _ _ hmem
    cases hmem
  | cons a snap ih =>
    intro fts store pb txf r h hsnodup hftsnodup hmem hsel hdata hoffset htxf
    simp only [List.nodup_cons] at hsnodup
    by_cases ha : a = sid
    · subst ha
      rw [prepFrames] at h
      rw [if_pos hsel] at h
      simp only [] at h
      obtain ⟨fv, hfv⟩ : ∃ fv, dictGet store a = some fv := by
        cases hg : dictGet store a with
        | none => rw [hg] at hoffset; cases hoffset
        | some fv => exact ⟨fv, rfl⟩
      have hfo : fv.offset = 0 := by
        rw [hfv] at hoffset
        simpa using hoffset
      rw [hfv, hdata] at h
      simp only [Option.getD_some, hfo] at h
      rw [if_pos (by simp : min ((ss a : Nat) : Int)
          ((([] : List Nat).length : Int) - ((0 : Nat) : Int)) = 0)] at h
      refine ⟨?_, ?_, ?_⟩
      · intro hmem2
        exact hftsnodup.not_mem_erase ((prepFrames_sublist dd ss sel snap _ _ _ _ _ h).subset hmem2)
      · rw [prepFrames_store_other dd ss sel a snap _ _ _ _ _ h hsnodup.1, hfv]
      · intro t ht
        rcases prepFrames_frames_ids dd ss sel snap _ _ _ _ _ h t ht with h1 | h2
        · exact htxf t h1
        · exact fun he => hsnodup.1 (he ▸ h2)
    · have hmem2 : sid ∈ snap := by
        rcases List.mem_cons.mp hmem with he | hm
        · exact absurd he.symm ha
        · exact hm
      rw [prepFrames] at h
      by_cases hasel : a ∈ sel
      · rw [if_pos hasel] at h
        simp only [] at h
        split at h
        · exact ih _ _ _ _ _ h hsnodup.2 ((List.erase_sublist _ _).nodup hftsnodup) hmem2 hsel
            hdata hoffset htxf
        · split at h
          · exact (Except.noConfusion h)
          · split at h
            · exact (Except.noConfusion h)
            · have hne : sid ≠ a := fun he => ha he.symm
              have hih := ih _ _ _ _ _ h hsnodup.2 hftsnodup hmem2 hsel hdata
                (by rw [dictGet_dictSet_ne _ _ _ _ hne]; exact hoffset)
                (by intro t ht
                    rcases List.mem_append.mp ht with h1 | h2
                    · exact htxf t h1
                    · rw [List.mem_singleton.mp h2]
                      exact ha)
              exact ⟨hih.1, by rw [hih.2.1, dictGet_dictSet_ne _ _ _ _ hne], hih.2.2⟩
      · rw [if_neg hasel] at h
        exact ih _ _ _ _ _ h hsnodup.2 hftsnodup hmem2 hsel hdata hoffset htxf

theorem ackFramesLoopAux_store_other (fts : List Nat) (k : Nat) (hk : k ∉ fts) :
    ∀ (bound : Nat) (rest : List Nat) (store : List (Nat × SFrame)) (sbs : List (Nat × Int)),
      dictGet (ackFramesLoopAux fts bound rest store sbs).1 k = dictGet store k := by
  intro bound
  induction bound with
  | zero => intro rest store sbs; rfl
  | succ bound ih =>
    intro rest store sbs
    rw [ackFramesLoopAux]
    by_cases hlen : 20 ≤ rest.length
    · rw [if_pos hlen]
      cases hdes : Frame.deserialize (rest.take 20) with
      | none => rfl
      | some af =>
        simp only []
        by_cases hc : af.type = ACK_FRAME ∧ af.streamId ∈ fts
        · rw [if_pos hc]
          rw [ih, dictGet_dictSet_ne _ _ _ _ (fun he => hk (by rw [he]; exact hc.2))]
        · rw [if_neg hc]
          exact ih _ _ _
    · rw [if_neg hlen]

theorem retryLoop_props (recv : Nat → Option (List Nat)) (pn : Nat) (tx : Transmission)
    (fts : List Nat) :
    ∀ (attempts : Nat) (store : List (Nat × SFrame)) (sbs : List (Nat × Int))
      (ei : Nat) (txLog : List Transmission) (res),
      retryLoop recv pn tx fts attempts store sbs ei txLog = .ok res →
      (∀ t ∈ res.2.2.2.2, t ∈ txLog ∨ t = tx) ∧
      (∀ k, k ∉ fts → dictGet res.2.1 k = dictGet store k) := by
  intro attempts
  induction attempts with
  | zero =>
    intro store sbs ei txLog res h
    cases h
    exact ⟨fun t ht => Or.inl ht, fun k _ => rfl⟩
  | succ attempts ih =>
    intro store sbs ei txLog res h
    rw [retryLoop] at h
    cases hrecv : recv ei with
    | none =>
      rw [hrecv] at h
      have := ih _ _ _ _ _ h
      refine ⟨fun t ht => ?_, this.2⟩
      rcases this.1 t ht with h1 | h2
      · rcases List.mem_append.mp h1 with h3 | h4
        · exact Or.inl h3
        · exact Or.inr (List.mem_singleton.mp h4)
      · exact Or.inr h2
    | some bytes =>
      rw [hrecv] at h
      cases hdr : PacketHeader.deserialize (bytes.take 5) with
      | none =>
        simp only [hdr] at h
        exact (Except.noConfusion h)
      | some rh =>
        simp only [hdr] at h
        by_cases hmatch : rh.number ≠ pn ∨ rh.type ≠ ACK_FRAME
        · rw [if_pos hmatch] at h
          have := ih _ _ _ _ _ h
          refine ⟨fun t ht => ?_, this.2⟩
          rcases this.1 t ht with h1 | h2
          · rcases List.mem_append.mp h1 with h3 | h4
            · exact Or.inl h3
            · exact Or.inr (List.mem_singleton.mp h4)
          · exact Or.inr h2
        · rw [if_neg hmatch] at h
          cases h
          refine ⟨fun t ht => ?_, fun k hk => ?_⟩
          · rcases List.mem_append.mp ht with h3 | h4
            · exact Or.inl h3
            · exact Or.inr (List.mem_singleton.mp h4)
          · exact ackFramesLoopAux_store_other fts k hk _ _ _ _



theorem sendLoop_absent_stream (cfg : SendConfig) (dd : List (Nat × List Nat)) (ss : Nat → Nat)
    (sample : Nat → List Nat → List Nat) (recv : Nat → Option (List Nat)) (sid : Nat) :
    ∀ (fuel : Nat) (st : LoopState) (u : Bool) (st2 : LoopState),
      sendLoop cfg dd ss sample recv fuel st = some (.ok (u, st2)) →
      sid ∉ st.framesToSend →
      (∀ t ∈ st.txLog, ∀ fr ∈ t.frames, fr.streamId ≠ sid) →
      sid ∉ st2.framesToSend ∧ dictGet st2.store sid = dictGet st.store sid ∧
        (∀ t ∈ st2.txLog, ∀ fr ∈ t.frames, fr.streamId ≠ sid) := by
  intro fuel
  induction fuel with
  | zero =>
    intro st u st2 h
    cases h
  | succ fuel ih =>
    intro st u st2 h hout htx
    rw [sendLoop] at h
    by_cases hempty : st.framesToSend = []
    · rw [if_pos hempty] at h
      simp only [Option.some.injEq, Except.ok.injEq, Prod.mk.injEq] at h
      obtain ⟨hu, hst⟩ := h
      rw [← hst]
      exact ⟨hout, rfl, htx⟩
    · rw [if_neg hempty] at h
      simp only [] at h
      split at h
      · simp only [Option.some.injEq] at h
        exact (Except.noConfusion h)
      next fts1 store1 pb1 txf1 hprep =>
        have hfts1 : sid ∉ fts1 := fun hm =>
          hout ((prepFrames_sublist _ _ _ _ _ _ _ _ _ hprep).subset hm)
        have hstore1 : dictGet store1 sid = dictGet st.store sid :=
          prepFrames_store_other _ _ _ sid _ _ _ _ _ _ hprep hout
        have htxf1 : ∀ fr ∈ txf1, fr.streamId ≠ sid := by
          intro fr hfr
          rcases prepFrames_frames_ids _ _ _ _ _ _ _ _ _ hprep fr hfr with h1 | h2
          · cases h1
          · exact fun he => hout (he ▸ h2)
        by_cases hfts1e : fts1 = []
        · rw [if_pos hfts1e] at h
          simp only [Option.some.injEq, Except.ok.injEq, Prod.mk.injEq] at h
          obtain ⟨hu, hst⟩ := h
          rw [← hst]
          exact ⟨by simp, hstore1, htx⟩
        · rw [if_neg hfts1e] at h
          split at h
          · simp only [Option.some.injEq] at h
            exact (Except.noConfusion h)
          next headerBytes hser =>
            split at h
            · simp only [Option.some.injEq] at h
              exact (Except.noConfusion h)
            next gotAck store2 sbs2 ei2 txLog2 hrl =>
              have hr := retryLoop_props _ _ _ _ _ _ _ _ _ _ hrl
              have htxLog2 : ∀ t ∈ txLog2, ∀ fr ∈ t.frames, fr.streamId ≠ sid := by
                intro t ht
                rcases hr.1 t ht with h1 | h2
                · exact htx t h1
                · rw [h2]
                  exact htxf1
              have hstore2 : dictGet store2 sid = dictGet st.store sid := by
                rw [hr.2 sid hfts1, hstore1]
              by_cases hga : gotAck = true
              · rw [if_pos hga] at h
                have := ih _ _ _ h hfts1 htxLog2
                exact ⟨this.1, by rw [this.2.1]; exact hstore2, this.2.2⟩
              · rw [if_neg hga] at h
                simp only [Option.some.injEq, Except.ok.injEq, Prod.mk.injEq] at h
                obtain ⟨hu, hst⟩ := h
                rw [← hst]
                exact ⟨hfts1, hstore2, htxLog2⟩



/-- Per-datagram well-formedness for the multiplexing policy: at most
`maxFramesForPacket` frames, and when the active list already fits, the
selection is exactly the active list. -/
def packetCapOk (cfg : SendConfig) (t : Transmission) : Prop :=
  t.frames.length ≤ cfg.maxFramesForPacket ∧
  (t.activeIds.length ≤ cfg.maxFramesForPacket → t.selectedIds = t.activeIds)

instance (cfg : SendConfig) (t : Transmission) : Decidable (packetCapOk cfg t) := by
  unfold packetCapOk
  infer_instance

theorem sendLoop_cap (cfg : SendConfig) (dd : List (Nat × List Nat)) (ss : Nat → Nat)
    (sample : Nat → List Nat → List Nat) (recv : Nat → Option (List Nat))
    (hsample : ∀ (rnd : Nat) (ids : List Nat), cfg.maxFramesForPacket < ids.length →
      ids.Nodup → (sample rnd ids).length = cfg.maxFramesForPacket) :
    ∀ (fuel : Nat) (st : LoopState) (u : Bool) (st2 : LoopState),
      sendLoop cfg dd ss sample recv fuel st = some (.ok (u, st2)) →
      st.framesToSend.Nodup →
      (∀ t ∈ st.txLog, packetCapOk cfg t) →
      ∀ t ∈ st2.txLog, packetCapOk cfg t := by
  intro fuel
  induction fuel with
  | zero =>
    intro st u st2 h
    cases h
  | succ fuel ih =>
    intro st u st2 h hnodup htx
    rw [sendLoop] at h
    by_cases hempty : st.framesToSend = []
    · rw [if_pos hempty] at h
      simp only [Option.some.injEq, Except.ok.injEq, Prod.mk.injEq] at h
      obtain ⟨hu, hst⟩ := h
      rw [← hst]
      exact htx
    · rw [if_neg hempty] at h
      simp only [] at h
      split at h
      · simp only [Option.some.injEq] at h
        exact (Except.noConfusion h)
      next fts1 store1 pb1 txf1 hprep =>
        have hnodup1 : fts1.Nodup :=
          (prepFrames_sublist _ _ _ _ _ _ _ _ _ hprep).nodup hnodup
        have hsellen : (if st.framesToSend.length ≤ cfg.maxFramesForPacket
            then st.framesToSend else sample st.round st.framesToSend).length
            ≤ cfg.maxFramesForPacket := by
          by_cases hle : st.framesToSend.length ≤ cfg.maxFramesForPacket
          · rw [if_pos hle]
            exact hle
          · rw [if_neg hle]
            rw [hsample st.round st.framesToSend (by omega) hnodup]
        have hcount : txf1.length ≤ cfg.maxFramesForPacket := by
          have h1 := prepFrames_frames_count _ _ _ _ _ _ _ _ _ hprep
          have h2 := filter_mem_length_le st.framesToSend
            (if st.framesToSend.length ≤ cfg.maxFramesForPacket
             then st.framesToSend else sample st.round st.framesToSend) hnodup
          simp only [List.length_nil] at h1
          omega
        by_cases hfts1e : fts1 = []
        · rw [if_pos hfts1e] at h
          simp only [Option.some.injEq, Except.ok.injEq, Prod.mk.injEq] at h
          obtain ⟨hu, hst⟩ := h
          rw [← hst]
          exact htx
        · rw [if_neg hfts1e] at h
          split at h
          · simp only [Option.some.injEq] at h
            exact (Except.noConfusion h)
          next headerBytes hser =>
            split at h
            · simp only [Option.some.injEq] at h
              exact (Except.noConfusion h)
            next gotAck store2 sbs2 ei2 txLog2 hrl =>
              have hr := retryLoop_props _ _ _ _ _ _ _ _ _ _ hrl
              have htxLog2 : ∀ t ∈ txLog2, packetCapOk cfg t := by
                intro t ht
                rcases hr.1 t ht with h1 | h2
                · exact htx t h1
                · rw [h2]
                  refine ⟨hcount, fun hle2 => ?_⟩
                  show (if st.framesToSend.length ≤ cfg.maxFramesForPacket
                    then st.framesToSend else sample st.round st.framesToSend) = _
                  rw [if_pos hle2]
              by_cases hga : gotAck = true
              · rw [if_pos hga] at h
                exact ih _ _ _ h hnodup1 htxLog2
              · rw [if_neg hga] at h
                simp only [Option.some.injEq, Except.ok.injEq, Prod.mk.injEq] at h
                obtain ⟨hu, hst⟩ := h
                rw [← hst]
                exact htxLog2



theorem sendData_ok_destruct (cfg : SendConfig) (dd : List (Nat × List Nat)) (ss : Nat → Nat)
    (sample : Nat → List Nat → List Nat) (recv : Nat → Option (List Nat))
    (sbs0 : List (Nat × Int)) (sp0 fuel : Nat) (res : SendResult)
    (h : sendData cfg dd ss sample recv sbs0 sp0 fuel = some (.ok res)) :
    ∃ u st2, sendLoop cfg dd ss sample recv fuel
        ⟨dd.map (fun p => p.1), dd.map (fun p => (p.1, ⟨0, (ss p.1 : Int)⟩)),
         dd.foldl (fun sbs p => if (dictGet sbs p.1).isSome then sbs else dictSet sbs p.1 0) sbs0,
         sp0, 0, 0, []⟩ = some (.ok (u, st2)) ∧
      res.transmissions = st2.txLog ∧ res.store = st2.store := by
  simp only [sendData] at h
  split at h
  · exact (Option.noConfusion h)
  · simp only [Option.some.injEq] at h
    exact (Except.noConfusion h)
  next u st2 hsl =>
    split at h
    · simp only [Option.some.injEq] at h
      exact (Except.noConfusion h)
    next i0 rest hids =>
      simp only [Option.some.injEq, Except.ok.injEq] at h
      exact ⟨u, st2, hsl, by rw [← h], by rw [← h]⟩

theorem sendLoop_empty_stream_run (cfg : SendConfig) (dd : List (Nat × List Nat))
    (ss : Nat → Nat) (sample : Nat → List Nat → List Nat) (recv : Nat → Option (List Nat))
    (sid : Nat) :
    ∀ (fuel : Nat) (st : LoopState) (u : Bool) (st2 : LoopState),
      sendLoop cfg dd ss sample recv fuel st = some (.ok (u, st2)) →
      st.framesToSend.Nodup →
      sid ∈ st.framesToSend →
      st.framesToSend.length ≤ cfg.maxFramesForPacket →
      (∀ t ∈ st.txLog, ∀ fr ∈ t.frames, fr.streamId ≠ sid) →
      dictGet dd sid = some [] →
      (dictGet st.store sid).map (fun f => f.offset) = some 0 →
      (∀ t ∈ st2.txLog, ∀ fr ∈ t.frames, fr.streamId ≠ sid) ∧
      (dictGet st2.store sid).map (fun f => f.offset) = some 0 := by
  intro fuel
  cases fuel with
  | zero =>
    intro st u st2 h
    cases h
  | succ fuel =>
    intro st u st2 h hnodup hmem hle htx hdata hoffset
    rw [sendLoop] at h
    have hempty : ¬(st.framesToSend = []) := by
      intro he
      rw [he] at hmem
      cases hmem
    rw [if_neg hempty] at h
    simp only [] at h
    rw [if_pos hle] at h
    split at h
    · simp only [Option.some.injEq] at h
      exact (Except.noConfusion h)
    next fts1 store1 pb1 txf1 hprep =>
      have hP5 := prepFrames_empty_stream dd ss st.framesToSend sid st.framesToSend
        st.framesToSend st.store [] [] _ hprep hnodup hnodup hmem hmem hdata hoffset
        (by intro t ht; cases ht)
      by_cases hfts1e : fts1 = []
      · rw [if_pos hfts1e] at h
        simp only [Option.some.injEq, Except.ok.injEq, Prod.mk.injEq] at h
        obtain ⟨hu, hst⟩ := h
        rw [← hst]
        exact ⟨htx, by rw [show ({ st with framesToSend := [], store := store1 } :
          LoopState).store = store1 from rfl, hP5.2.1, hoffset]⟩
      · rw [if_neg hfts1e] at h
        split at h
        · simp only [Option.some.injEq] at h
          exact (Except.noConfusion h)
        next headerBytes hser =>
          split at h
          · simp only [Option.some.injEq] at h
            exact (Except.noConfusion h)
          next gotAck store2 sbs2 ei2 txLog2 hrl =>
            have hr := retryLoop_props _ _ _ _ _ _ _ _ _ _ hrl
            have htxLog2 : ∀ t ∈ txLog2, ∀ fr ∈ t.frames, fr.streamId ≠ sid := by
              intro t ht
              rcases hr.1 t ht with h1 | h2
              · exact htx t h1
              · rw [h2]
                exact hP5.2.2
            have hstore2 : (dictGet store2 sid).map (fun f => f.offset) = some 0 := by
              rw [hr.2 sid hP5.1, hP5.2.1, hoffset]
            by_cases hga : gotAck = true
            · rw [if_pos hga] at h
              have := sendLoop_absent_stream cfg dd ss sample recv sid _ _ _ _ h hP5.1 htxLog2
              exact ⟨this.2.2, by rw [this.2.1]; exact hstore2⟩
            · rw [if_neg hga] at h
              simp only [Option.some.injEq, Except.ok.injEq, Prod.mk.injEq] at h
              obtain ⟨hu, hst⟩ := h
              rw [← hst]
              exact ⟨htxLog2, hstore2⟩


theorem sendData_singleton_empty (cfg : SendConfig) (sid : Nat) (ss : Nat → Nat)
    (sample : Nat → List Nat → List Nat) (recv : Nat → Option (List Nat))
    (sbs0 : List (Nat × Int)) (sp0 fuel : Nat)
    (hcap : 1 ≤ cfg.maxFramesForPacket) :
    (sendData cfg [(sid, [])] ss sample recv sbs0 sp0 (fuel + 1)).map
      (fun e => e.map (fun r => (r.total, r.unresponsive, r.transmissions)))
      = some (.ok (0, false, [])) := by
  simp only [sendData, List.map_cons, List.map_nil]
  rw [sendLoop]
  rw [if_neg (show ¬([sid] = []) by simp)]
  simp only []
  rw [if_pos (show ([sid] : List Nat).length ≤ cfg.maxFramesForPacket by simpa using hcap)]
  rw [prepFrames]
  rw [if_pos (List.mem_singleton_self sid)]
  simp only [dictGet, List.find?_cons, decide_eq_true (rfl : sid = sid), decide_True, Option.map_some', Option.getD_some]
  rw [if_pos (show min ((ss sid : Nat) : Int)
      ((([] : List Nat).length : Int) - ((0 : Nat) : Int)) = 0 by simp)]
  rw [List.erase_cons_head]
  rw [prepFrames]
  simp [dictGet, List.find?_cons]
  rfl

/-- Stream ids named by `ACK_FRAME`-typed frames along the exact pointer walk
of the sender's ACK-processing loop: 20 bytes per frame, then an
unconditional skip of `ack_frame.length` trailing bytes. -/
def ackNamedSids : Nat → List Nat → List Nat
  | 0, _ => []
  | bound + 1, rest =>
    if 20 ≤ rest.length then
      match Frame.deserialize (rest.take 20) with
      | none => []
      | some af =>
        if af.type = ACK_FRAME then
          af.streamId :: ackNamedSids bound ((rest.drop 20).drop af.length)
        else
          ackNamedSids bound ((rest.drop 20).drop af.length)
    else []

theorem ackFramesLoopAux_store_unnamed (fts : List Nat) (k : Nat) :
    ∀ (bound : Nat) (rest : List Nat) (store : List (Nat × SFrame)) (sbs : List (Nat × Int)),
      k ∉ ackNamedSids bound rest →
      dictGet (ackFramesLoopAux fts bound rest store sbs).1 k = dictGet store k := by
  intro bound
  induction bound with
  | zero => intro rest store sbs _; rfl
  | succ bound ih =>
    intro rest store sbs hk
    rw [ackFramesLoopAux]
    rw [ackNamedSids] at hk
    by_cases hlen : 20 ≤ rest.length
    · rw [if_pos hlen]
      rw [if_pos hlen] at hk
      cases hdes : Frame.deserialize (rest.take 20) with
      | none => rfl
      | some af =>
        simp only [hdes] at hk
        simp only []
        by_cases htype : af.type = ACK_FRAME
        · rw [if_pos htype] at hk
          simp only [List.mem_cons, not_or] at hk
          by_cases hc : af.type = ACK_FRAME ∧ af.streamId ∈ fts
          · rw [if_pos hc]
            rw [ih _ _ _ hk.2, dictGet_dictSet_ne _ _ _ _ hk.1]
          · rw [if_neg hc]
            exact ih _ _ _ hk.2
        · rw [if_neg htype] at hk
          rw [if_neg (fun hc => htype hc.1)]
          exact ih _ _ _ hk
    · rw [if_neg hlen]

theorem retryLoop_store_unnamed (recv : Nat → Option (List Nat)) (pn : Nat)
    (tx : Transmission) (fts : List Nat) (k : Nat)
    (hrecv : ∀ i bytes, recv i = some bytes →
      k ∉ ackNamedSids (bytes.drop 5).length (bytes.drop 5)) :
    ∀ (attempts : Nat) (store : List (Nat × SFrame)) (sbs : List (Nat × Int))
      (ei : Nat) (txLog : List Transmission) (res),
      retryLoop recv pn tx fts attempts store sbs ei txLog = .ok res →
      dictGet res.2.1 k = dictGet store k := by
  intro attempts
  induction attempts with
  | zero => intro store sbs ei txLog res h; cases h; rfl
  | succ attempts ih =>
    intro store sbs ei txLog res h
    rw [retryLoop] at h
    cases hrecv2 : recv ei with
    | none =>
      rw [hrecv2] at h
      exact ih _ _ _ _ _ h
    | some bytes =>
      rw [hrecv2] at h
      cases hdr : PacketHeader.deserialize (bytes.take 5) with
      | none =>
        simp only [hdr] at h
        exact (Except.noConfusion h)
      | some rh =>
        simp only [hdr] at h
        by_cases hmatch : rh.number ≠ pn ∨ rh.type ≠ ACK_FRAME
        · rw [if_pos hmatch] at h
          exact ih _ _ _ _ _ h
        · rw [if_neg hmatch] at h
          cases h
          exact ackFramesLoopAux_store_unnamed fts k _ _ _ _ (hrecv ei bytes hrecv2)

theorem prepFrames_empty_data (dd : List (Nat × List Nat)) (ss : Nat → Nat)
    (sel : List Nat) (sid : Nat) (hdata : dictGet dd sid = some []) :
    ∀ (snap fts : List Nat) (store : List (Nat × SFrame)) (pb : List Nat)
      (txf : List TxFrame) (r),
      prepFrames dd ss sel snap fts store pb txf = .ok r →
      dictGet r.2.1 sid = dictGet store sid ∧
        ((∀ t ∈ txf, t.streamId ≠ sid) → ∀ t ∈ r.2.2.2, t.streamId ≠ sid) := by
  intro snap
  induction snap with
  | nil =>
    intro fts store pb txf r h
    cases h
    exact ⟨rfl, fun htxf => htxf⟩
  | cons a snap ih =>
    intro fts store pb txf r h
    rw [prepFrames] at h
    by_cases hasel : a ∈ sel
    · rw [if_pos hasel] at h
      simp only [] at h
      by_cases ha : a = sid
      · have hdataa : dictGet dd a = some [] := by rw [ha]; exact hdata
        rw [hdataa] at h
        simp only [Option.getD_some] at h
        have hle : min ((ss a : Nat) : Int)
            ((([] : List Nat).length : Int)
              - ((((dictGet store a).getD ⟨0, 0⟩).offset : Nat) : Int)) ≤ 0 := by
          refine le_trans (min_le_right _ _) ?_
          simp only [List.length_nil, Nat.cast_zero]
          omega
        by_cases hz : min ((ss a : Nat) : Int)
            ((([] : List Nat).length : Int)
              - ((((dictGet store a).getD ⟨0, 0⟩).offset : Nat) : Int)) = 0
        · rw [if_pos hz] at h
          exact ih _ _ _ _ _ h
        · rw [if_neg hz, if_pos (lt_of_le_of_ne hle hz)] at h
          exact (Except.noConfusion h)
      · split at h
        · exact ih _ _ _ _ _ h
        · split at h
          · exact (Except.noConfusion h)
          · split at h
            · exact (Except.noConfusion h)
            · have hih := ih _ _ _ _ _ h
              refine ⟨by rw [hih.1, dictGet_dictSet_ne _ _ _ _ (fun he => ha he.symm)],
                fun htxf => hih.2 ?_⟩
              intro t ht
              rcases List.mem_append.mp ht with h1 | h2
              · exact htxf t h1
              · rw [List.mem_singleton.mp h2]
                exact ha
    · rw [if_neg hasel] at h
      exact ih _ _ _ _ _ h

theorem sendLoop_empty_data (cfg : SendConfig) (dd : List (Nat × List Nat)) (ss : Nat → Nat)
    (sample : Nat → List Nat → List Nat) (recv : Nat → Option (List Nat)) (sid : Nat)
    (hdata : dictGet dd sid = some []) :
    ∀ (fuel : Nat) (st : LoopState) (u : Bool) (st2 : LoopState),
      sendLoop cfg dd ss sample recv fuel st = some (.ok (u, st2)) →
      (∀ t ∈ st.txLog, ∀ fr ∈ t.frames, fr.streamId ≠ sid) →
      (∀ t ∈ st2.txLog, ∀ fr ∈ t.frames, fr.streamId ≠ sid) ∧
      ((∀ i bytes, recv i = some bytes →
          sid ∉ ackNamedSids (bytes.drop 5).length (bytes.drop 5)) →
        dictGet st2.store sid = dictGet st.store sid) := by
  intro fuel
  induction fuel with
  | zero => intro st u st2 h; cases h
  | succ fuel ih =>
    intro st u st2 h htx
    rw [sendLoop] at h
    by_cases hempty : st.framesToSend = []
    · rw [if_pos hempty] at h
      simp only [Option.some.injEq, Except.ok.injEq, Prod.mk.injEq] at h
      obtain ⟨hu, hst⟩ := h
      rw [← hst]
      exact ⟨htx, fun _ => rfl⟩
    · rw [if_neg hempty] at h
      simp only [] at h
      split at h
      · simp only [Option.some.injEq] at h
        exact (Except.noConfusion h)
      next fts1 store1 pb1 txf1 hprep =>
        have hP := prepFrames_empty_data dd ss _ sid hdata _ _ _ _ _ _ hprep
        have htxf1 : ∀ t ∈ txf1, t.streamId ≠ sid :=
          hP.2 (by intro t ht; cases ht)
        by_cases hfts1e : fts1 = []
        · rw [if_pos hfts1e] at h
          simp only [Option.some.injEq, Except.ok.injEq, Prod.mk.injEq] at h
          obtain ⟨hu, hst⟩ := h
          rw [← hst]
          exact ⟨htx, fun _ => hP.1⟩
        · rw [if_neg hfts1e] at h
          split at h
          · simp only [Option.some.injEq] at h
            exact (Except.noConfusion h)
          next headerBytes hser =>
            split at h
            · simp only [Option.some.injEq] at h
              exact (Except.noConfusion h)
            next gotAck store2 sbs2 ei2 txLog2 hrl =>
              have hr := retryLoop_props _ _ _ _ _ _ _ _ _ _ hrl
              have htxLog2 : ∀ t ∈ txLog2, ∀ fr ∈ t.frames, fr.streamId ≠ sid := by
                intro t ht
                rcases hr.1 t ht with h1 | h2
                · exact htx t h1
                · rw [h2]
                  exact htxf1
              by_cases hga : gotAck = true
              · rw [if_pos hga] at h
                have hih := ih _ _ _ h htxLog2
                refine ⟨hih.1, fun hrecv => ?_⟩
                rw [hih.2 hrecv]
                exact (retryLoop_store_unnamed recv _ _ _ sid hrecv _ _ _ _ _ _ hrl).trans hP.1
              · rw [if_neg hga] at h
                simp only [Option.some.injEq, Except.ok.injEq, Prod.mk.injEq] at h
                obtain ⟨hu, hst⟩ := h
                rw [← hst]
                refine ⟨htxLog2, fun hrecv => ?_⟩
                exact (retryLoop_store_unnamed recv _ _ _ sid hrecv _ _ _ _ _ _ hrl).trans hP.1

theorem dictGet_store0 (dd : List (Nat × List Nat)) (ss : Nat → Nat) (k : Nat) :
    dictGet (dd.map (fun p => (p.1, (⟨0, (ss p.1 : Int)⟩ : SFrame)))) k
      = (dictGet dd k).map (fun _ => (⟨0, (ss k : Int)⟩ : SFrame)) := by
  induction dd with
  | nil => rfl
  | cons p rest ih =>
    by_cases h : p.1 = k
    · simp [dictGet, List.find?_cons, h]
    · simp only [List.map_cons, dictGet, List.find?_cons, decide_eq_false h]
      exact ih


/-- C6: within any completed send, every assembled datagram carries at most
`MAX_FRAMES_FOR_PACKET` (6 in `MyQUIC.py`, the canonical constant; the
theorem is parametric in the retry budget and so covers both retry-loop
variants) data frames, the over-limit subsets being drawn by the
`random.sample` oracle, and whenever the number of active streams fits the
limit, all of them are selected. -/
theorem claim_C6_multiplexing_cap (maxRetries : Nat) (dataDict : List (Nat × List Nat))
    (ss : Nat → Nat) (sample : Nat → List Nat → List Nat) (recv : Nat → Option (List Nat))
    (sbs0 : List (Nat × Int)) (sp0 fuel : Nat) (res : SendResult)
    (hnodup : (dataDict.map (fun p => p.1)).Nodup)
    (hsample : ∀ (rnd : Nat) (ids : List Nat), MyQUIC_MAX_FRAMES_FOR_PACKET < ids.length →
      ids.Nodup → (sample rnd ids).length = MyQUIC_MAX_FRAMES_FOR_PACKET)
    (hrun : sendData ⟨MyQUIC_MAX_FRAMES_FOR_PACKET, maxRetries⟩ dataDict ss sample recv
      sbs0 sp0 fuel = some (.ok res)) :
    ∀ t ∈ res.transmissions,
      t.frames.length ≤ MyQUIC_MAX_FRAMES_FOR_PACKET ∧
      (t.activeIds.length ≤ MyQUIC_MAX_FRAMES_FOR_PACKET → t.selectedIds = t.activeIds) := by
  obtain ⟨u, st2, hsl, htx, _⟩ := sendData_ok_destruct _ _ _ _ _ _ _ _ _ hrun
  rw [htx]
  exact sendLoop_cap _ _ _ _ _ hsample _ _ _ _ hsl hnodup (by intro t ht; cases ht)

/-- Concrete transmission produced by sending `{1: [9]}` with chunk draw
1000 under the `MyQUIC.py` configuration and a silent peer. -/
def c6Tx : Transmission :=
  ⟨0, [3, 0, 0, 0, 0, 0, 0, 0, 1, 0, 0, 0, 5, 0, 0, 0, 0, 0, 0, 0, 0, 0, 0, 0, 1, 9],
   [1], [1], [⟨1, 0, 1, [9]⟩]⟩

theorem claim_C6_witness :
    c6Tx.frames.length ≤ MyQUIC_MAX_FRAMES_FOR_PACKET ∧ c6Tx.selectedIds = c6Tx.activeIds :=
  have h := claim_C6_multiplexing_cap 1 [(1, [9])] (fun _ => 1000) (fun _ ids => ids.take 6)
    (fun _ => none) [] 0 2
    (SendResult.mk 0 true [c6Tx] [(1, ⟨0, 1⟩)] [(1, 0)] 1) (by decide)
    (fun rnd ids hlt hn => by
      simp [MyQUIC_MAX_FRAMES_FOR_PACKET, List.length_take] at hlt ⊢
      omega) (by decide) c6Tx (by decide)
  ⟨h.1, h.2 (by decide)⟩

/-- Requested streams for the C8 counterexample: seven streams against the
frame cap of 6; stream 7 carries the zero-length payload. -/
def c8Data : List (Nat × List Nat) :=
  [(1, List.replicate 60 7), (2, [1]), (3, [1]), (4, [1]), (5, [1]), (6, [1]), (7, [])]

/-- ACK datagram for packet 0 whose header matches the outstanding packet
but which carries, after six legitimate ACK frames, a seventh ACK frame
naming the never-transmitted stream 7 with offset 7.  The sender validates
neither the ACK's origin address nor that an acknowledged stream id was
actually sent, only membership in the live `frames_to_send` list — which
still holds the unselected stream 7. -/
def c8Ack : List Nat :=
  [6, 0, 0, 0, 0] ++
  [0, 0, 0, 1, 0, 0, 0, 6, 0, 0, 0, 0, 0, 0, 0, 60, 0, 0, 0, 0] ++
  [0, 0, 0, 2, 0, 0, 0, 6, 0, 0, 0, 0, 0, 0, 0, 1, 0, 0, 0, 0] ++
  [0, 0, 0, 3, 0, 0, 0, 6, 0, 0, 0, 0, 0, 0, 0, 1, 0, 0, 0, 0] ++
  [0, 0, 0, 4, 0, 0, 0, 6, 0, 0, 0, 0, 0, 0, 0, 1, 0, 0, 0, 0] ++
  [0, 0, 0, 5, 0, 0, 0, 6, 0, 0, 0, 0, 0, 0, 0, 1, 0, 0, 0, 0] ++
  [0, 0, 0, 6, 0, 0, 0, 6, 0, 0, 0, 0, 0, 0, 0, 1, 0, 0, 0, 0] ++
  [0, 0, 0, 7, 0, 0, 0, 6, 0, 0, 0, 0, 0, 0, 0, 7, 0, 0, 0, 0]

/-- Receive oracle of the C8 counterexample: the forged ACK for packet 0,
then only timeouts. -/
def c8Recv : Nat → Option (List Nat) := fun i => if i = 0 then some c8Ack else none

/-- C8 is refuted on the code: with seven requested streams against the
frame cap of 6 (`random.sample` modelled as `take 6` never selects stream
7, so the zero-length stream is never removed from `frames_to_send`) and a
single matching ACK datagram carrying an extra ACK frame that names stream
7 with offset 7, the sender overwrites stream 7's recorded offset through
its unvalidated `sentFrame.streamId == ackFrame.streamId` scan of the live
list, then aborts on retry exhaustion: the returned total is 72 = 60 +
1 + 1 + 1 + 1 + 1 + 7 — the zero-length stream contributed 7 — although no
transmitted datagram ever carried a frame for stream 7 (the count of
transmissions holding such a frame is 0). -/
theorem claim_C8_counterexample :
    (sendData ⟨MyQUIC_MAX_FRAMES_FOR_PACKET, MAX_RETRIES⟩ c8Data (fun _ => 1000)
        (fun _ ids => ids.take 6) c8Recv [] 0 3).map
      (fun e => e.map (fun r =>
        (r.total, (dictGet r.store 7).map (fun f => f.offset),
         r.transmissions.countP (fun t => t.frames.any (fun fr => decide (fr.streamId = 7))))))
      = some (.ok (72, some 7, 0)) := by decide

/-- C8 (amended): a zero-length stream never becomes active: in any
completed send whose input maps `sid` to `b""`, no transmitted datagram
carries a data frame for `sid`; its recorded offset — its contribution to
any returned total — stays 0 provided every consumed ACK datagram names
only streams that were actually sent (true of a protocol-following
receiver), and unconditionally whenever the requested streams fit one
packet's frame budget; sending `{streamId: b""}` alone terminates at once
with no transmissions and total 0. -/
theorem claim_C8_zero_length_amended :
    (∀ (cfg : SendConfig) (dataDict : List (Nat × List Nat)) (ss : Nat → Nat)
       (sample : Nat → List Nat → List Nat) (recv : Nat → Option (List Nat))
       (sbs0 : List (Nat × Int)) (sp0 fuel sid : Nat) (res : SendResult),
       dictGet dataDict sid = some [] →
       sendData cfg dataDict ss sample recv sbs0 sp0 fuel = some (.ok res) →
       (∀ t ∈ res.transmissions, ∀ fr ∈ t.frames, fr.streamId ≠ sid) ∧
       ((∀ i bytes, recv i = some bytes →
           sid ∉ ackNamedSids (bytes.drop 5).length (bytes.drop 5)) →
         (dictGet res.store sid).map (fun f => f.offset) = some 0)) ∧
    (∀ (cfg : SendConfig) (dataDict : List (Nat × List Nat)) (ss : Nat → Nat)
       (sample : Nat → List Nat → List Nat) (recv : Nat → Option (List Nat))
       (sbs0 : List (Nat × Int)) (sp0 fuel sid : Nat) (res : SendResult),
       (dataDict.map (fun p => p.1)).Nodup →
       (sid, ([] : List Nat)) ∈ dataDict →
       dataDict.length ≤ cfg.maxFramesForPacket →
       sendData cfg dataDict ss sample recv sbs0 sp0 fuel = some (.ok res) →
       (dictGet res.store sid).map (fun f => f.offset) = some 0) ∧
    (∀ (cfg : SendConfig) (sid : Nat) (ss : Nat → Nat) (sample : Nat → List Nat → List Nat)
       (recv : Nat → Option (List Nat)) (sbs0 : List (Nat × Int)) (sp0 fuel : Nat),
       1 ≤ cfg.maxFramesForPacket →
       (sendData cfg [(sid, [])] ss sample recv sbs0 sp0 (fuel + 1)).map
         (fun e => e.map (fun r => (r.total, r.unresponsive, r.transmissions)))
         = some (.ok (0, false, []))) := by
  refine ⟨?_, ?_, ?_⟩
  · intro cfg dataDict ss sample recv sbs0 sp0 fuel sid res hdata hrun
    obtain ⟨u, st2, hsl, htx, hstore⟩ := sendData_ok_destruct _ _ _ _ _ _ _ _ _ hrun
    have h := sendLoop_empty_data cfg dataDict ss sample recv sid hdata _ _ _ _ hsl
      (by intro t ht; cases ht)
    refine ⟨?_, fun hrecv => ?_⟩
    · rw [htx]
      exact h.1
    · rw [hstore, h.2 hrecv]
      show (dictGet (dataDict.map (fun p => (p.1, (⟨0, (ss p.1 : Int)⟩ : SFrame)))) sid).map
        (fun f => f.offset) = some 0
      rw [dictGet_store0, hdata]
      rfl
  · intro cfg dataDict ss sample recv sbs0 sp0 fuel sid res hnodup hmem hsmall hrun
    obtain ⟨u, st2, hsl, htx, hstore⟩ := sendData_ok_destruct _ _ _ _ _ _ _ _ _ hrun
    have hkeys : ((dataDict.map (fun p => (p.1, (⟨0, (ss p.1 : Int)⟩ : SFrame)))).map
        (fun p => p.1)).Nodup := by
      rw [List.map_map]
      exact hnodup
    have hrun2 := sendLoop_empty_stream_run cfg dataDict ss sample recv sid _ _ _ _ hsl
      hnodup (List.mem_map.mpr ⟨(sid, []), hmem, rfl⟩)
      (by rw [List.length_map]; exact hsmall)
      (by intro t ht; cases ht)
      (dictGet_of_mem_nodup _ _ _ hnodup hmem)
      (by rw [dictGet_of_mem_nodup _ sid (⟨0, (ss sid : Int)⟩ : SFrame) hkeys
            (List.mem_map.mpr ⟨(sid, []), hmem, rfl⟩)]
          rfl)
    rw [hstore]
    exact hrun2.2
  · exact sendData_singleton_empty

/-- Concrete result of sending `{1: [9], 2: b""}` under the `MyQUIC.py`
configuration with a silent peer: one datagram carrying only a stream-1
frame, then retry exhaustion. -/
def c8wRes : SendResult :=
  ⟨0, true,
   [⟨0, [3, 0, 0, 0, 0, 0, 0, 0, 1, 0, 0, 0, 5, 0, 0, 0, 0, 0, 0, 0, 0, 0, 0, 0, 1, 9],
     [1, 2], [1, 2], [⟨1, 0, 1, [9]⟩]⟩],
   [(1, ⟨0, 1⟩), (2, ⟨0, 1000⟩)], [(1, 0), (2, 0)], 1⟩

theorem claim_C8_witness :
    (∀ t ∈ c8wRes.transmissions, ∀ fr ∈ t.frames, fr.streamId ≠ 2) ∧
    (dictGet c8wRes.store 2).map (fun f => f.offset) = some 0 ∧
    (dictGet (SendResult.mk 0 false [] [(3, ⟨0, 1200⟩)] [(3, 0)] 0).store 3).map
      (fun f => f.offset) = some 0 ∧
    (sendData ⟨6, 1⟩ [(5, [])] (fun _ => 1200) (fun _ ids => ids) (fun _ => none)
        [] 0 (0 + 1)).map
      (fun e => e.map (fun r => (r.total, r.unresponsive, r.transmissions)))
      = some (.ok (0, false, [])) :=
  have h1 := claim_C8_zero_length_amended.1 ⟨6, 1⟩ [(1, [9]), (2, [])] (fun _ => 1000)
    (fun _ ids => ids.take 6) (fun _ => none) [] 0 2 2 c8wRes (by decide) (by decide)
  have h2 := claim_C8_zero_length_amended.2.1 ⟨6, 1⟩ [(3, [])] (fun _ => 1200)
    (fun _ ids => ids) (fun _ => none) [] 0 2 3
    (SendResult.mk 0 false [] [(3, ⟨0, 1200⟩)] [(3, 0)] 0) (by decide) (by decide)
    (by decide) (by decide)
  ⟨h1.1, h1.2 (by intro i bytes hb; exact Option.noConfusion hb), h2,
   claim_C8_zero_length_amended.2.2 ⟨6, 1⟩ 5 (fun _ => 1200) (fun _ ids => ids)
     (fun _ => none) [] 0 0 (by decide)⟩


end MYQUIC
